import Mathlib

/-!
Verification of the `skillhub-registry` scripts.

This file gives a shallow embedding of the three Python scripts of the
repository — `scripts/validate_skill.py`, `scripts/generate_index.py` and
`.github/scripts/process_skill_submission.py` — and proves properties of the
embedding.

Modelling conventions, shared by all three scripts:

* Parsed YAML values are modelled by the inductive type `Yaml`.  Mappings are
  association lists with string keys and unique keys (PyYAML collapses
  duplicate keys, and the scripts only ever look mappings up by string keys).
  Floats, dates and other scalar node types the scripts never produce in the
  situations studied here are not modelled; integers, booleans, null, strings,
  sequences and mappings are.
* The PyYAML parser itself (`yaml.safe_load`) is external C/Python code; every
  embedded function takes it as an explicit parameter
  `sl : String → Except String Yaml`, where `.error m` models a raised
  `yaml.YAMLError` with message `m` and `.ok v` a parsed document (`Yaml.null`
  models Python `None`, which `safe_load` returns for empty input).  Concrete
  theorems instantiate it with the finite table `safeLoadTable` below, whose
  entries record what PyYAML returns on exactly the frontmatter strings used
  in those theorems.
* Python exceptions that the scripts do NOT catch are modelled by the
  `Except PyExc` monad; operations such as `re.match` on a non-string, `in`
  on a non-container, `len` of an int or `.get` on a non-dict return
  `.error` with the exception Python raises there.
* Python strings are modelled by Lean `String`, and the string operations the
  scripts use (`split`, `find`, slicing, `strip`, `lower`, `startswith`,
  substring `in`) are defined below on the character list `String.data`,
  following CPython semantics.  Python `str.strip` and the regex class `\s`
  also strip or match some rarer Unicode space characters; only their ASCII
  behaviour (space, tab, newline, carriage return, form feed, vertical tab)
  is modelled, which is exact on all inputs considered here.  The regexes the
  scripts use are fixed literal patterns; each is compiled by hand into a
  boolean function, including `re.match`'s anchoring at the start only and
  `$` also matching just before a trailing newline.
-/

set_option maxRecDepth 10000

/-- Characters matched by the regex class `\s` and stripped by `str.strip`
(ASCII part, see the module comment). -/
def isPySpace (c : Char) : Bool :=
  c = ' ' || c = '\t' || c = '\n' || c = '\r' || c = '\x0b' || c = '\x0c'

/-- Python `pat in hay` on strings: contiguous-substring test, on char lists. -/
def listContains (pat : List Char) : List Char → Bool
  | [] => pat.isEmpty
  | c :: rest => pat.isPrefixOf (c :: rest) || listContains pat rest

/-- Python `pat in hay` on strings (substring containment). -/
def strIn (pat hay : String) : Bool := listContains pat.data hay.data

/-- Python `s.startswith(pre)`. -/
def pyStartsWith (s pre : String) : Bool := pre.data.isPrefixOf s.data

/-- Python `s.strip()` on char lists (ASCII whitespace, see module comment). -/
def pyStripChars (cs : List Char) : List Char :=
  ((cs.dropWhile isPySpace).reverse.dropWhile isPySpace).reverse

/-- Python `s.strip()`. -/
def pyStrip (s : String) : String := ⟨pyStripChars s.data⟩

/-- Python `str.lower` on one character (ASCII; the metadata and category
strings checked here are ASCII). -/
def pyLowerChar (c : Char) : Char :=
  if 'A' ≤ c && c ≤ 'Z' then Char.ofNat (c.toNat + 32) else c

/-- Python `s.lower()`. -/
def strLower (s : String) : String := ⟨s.data.map pyLowerChar⟩

/-- Python `s.replace(" ", "-")`. -/
def strReplaceSpaceHyphen (s : String) : String :=
  ⟨s.data.map (fun c => if c = ' ' then '-' else c)⟩

/-- The first occurrence of `sep` in a char list: `some (before, after)`
with the occurrence removed, `none` when `sep` does not occur.  `sep` is
always non-empty where this is used. -/
def splitOnce (sep : List Char) : List Char → Option (List Char × List Char)
  | [] => none
  | c :: cs =>
    if sep.isPrefixOf (c :: cs) then some ([], (c :: cs).drop sep.length)
    else match splitOnce sep cs with
      | none => none
      | some (a, b) => some (c :: a, b)

/-- Python `s.split(sep, maxsplit)` on char lists: split on the leftmost
occurrences of `sep`, at most `maxsplit` times. -/
def pySplitChars (sep : List Char) : Nat → List Char → List (List Char)
  | 0, s => [s]
  | m + 1, s =>
    match splitOnce sep s with
    | none => [s]
    | some (a, b) => a :: pySplitChars sep m b

/-- Python `s.split(sep, maxsplit)`. -/
def pySplit (s sep : String) (maxsplit : Nat) : List String :=
  (pySplitChars sep.data maxsplit s.data).map fun l => ⟨l⟩

/-- Index (in characters) of the first occurrence of `pat` in `hay`,
`none` when absent: Python `hay.find(pat)` (which returns `-1` for `none`). -/
def findSub (pat : List Char) : List Char → Option Nat
  | [] => if pat.isEmpty then some 0 else none
  | c :: cs =>
    if pat.isPrefixOf (c :: cs) then some 0
    else match findSub pat cs with
      | none => none
      | some i => some (i + 1)

/-- Python `hay.find(pat, start)`: first occurrence at index `start` or
later. -/
def pyFindFrom (hay pat : String) (start : Nat) : Option Nat :=
  match findSub pat.data (hay.data.drop start) with
  | none => none
  | some i => some (i + start)

/-- Python slice `s[a:b]` (for `0 ≤ a`, `0 ≤ b`, both clipped to the
length as in Python). -/
def pySlice (s : String) (a b : Nat) : String := ⟨(s.data.take b).drop a⟩

/-- Python slice `s[a:]`. -/
def pySliceFrom (s : String) (a : Nat) : String := ⟨s.data.drop a⟩

/-- The first line of a document: the text before the first newline.  (Used to
state claims that speak about "the first line" of a skill file.) -/
def firstLine (s : String) : String := ⟨s.data.takeWhile (· ≠ '\n')⟩

/-- A parsed YAML value, as the scripts see it after `yaml.safe_load`
(see the module comment for what is and is not modelled). -/
inductive Yaml where
  | null
  | bool (b : Bool)
  | int (n : Int)
  | str (s : String)
  | list (xs : List Yaml)
  | map (kvs : List (String × Yaml))
deriving Repr

/-- Python truthiness (`bool(v)`) of a parsed value. -/
def Yaml.truthy : Yaml → Bool
  | .null => false
  | .bool b => b
  | .int n => n != 0
  | .str s => !s.isEmpty
  | .list xs => !xs.isEmpty
  | .map kvs => !kvs.isEmpty

/-- Python `type(v).__name__`, used in exception messages. -/
def Yaml.typeName : Yaml → String
  | .null => "NoneType"
  | .bool _ => "bool"
  | .int _ => "int"
  | .str _ => "str"
  | .list _ => "list"
  | .map _ => "dict"

/-- Python `isinstance(v, list)`. -/
def Yaml.isList : Yaml → Bool
  | .list _ => true
  | _ => false

/-- A scalar node: not a sequence and not a mapping. -/
def Yaml.isScalar : Yaml → Bool
  | .null => true
  | .bool _ => true
  | .int _ => true
  | .str _ => true
  | .list _ => false
  | .map _ => false

/-- Python `s == v` for a string `s` and an arbitrary value `v`: values of
other types never equal a string. -/
def pyEqStr (s : String) : Yaml → Bool
  | .str t => s = t
  | _ => false

/-- The Python exceptions the scripts can raise without catching them. -/
inductive PyExc where
  | typeError (msg : String)
  | attributeError (msg : String)
  | keyError (msg : String)
deriving Repr, DecidableEq

/-- Python `k in v` for a string `k`: key test on a dict, membership on a
list, substring test on a string, `TypeError` otherwise. -/
def pyIn (k : String) : Yaml → Except PyExc Bool
  | .map kvs => .ok (kvs.any fun p => p.1 == k)
  | .list xs => .ok (xs.any (pyEqStr k))
  | .str s => .ok (strIn k s)
  | v => .error (.typeError ("argument of type '" ++ v.typeName ++ "' is not iterable"))

/-- Python `v[k]` for a string `k`: dict lookup (`KeyError` when absent),
`TypeError` on every other type. -/
def pyGetItem (v : Yaml) (k : String) : Except PyExc Yaml :=
  match v with
  | .map kvs =>
    match List.lookup k kvs with
    | some w => .ok w
    | none => .error (.keyError k)
  | .str _ => .error (.typeError "string indices must be integers")
  | .list _ => .error (.typeError "list indices must be integers or slices, not str")
  | v => .error (.typeError ("'" ++ v.typeName ++ "' object is not subscriptable"))

/-- Python `v.get(k, d)`: defined on dicts only, `AttributeError` on every
other type. -/
def yamlDictGet (v : Yaml) (k : String) (d : Yaml) : Except PyExc Yaml :=
  match v with
  | .map kvs => .ok ((List.lookup k kvs).getD d)
  | v => .error (.attributeError ("'" ++ v.typeName ++ "' object has no attribute 'get'"))

/-- Python `len(v)`: length of a string (in characters), a list or a dict,
`TypeError` otherwise. -/
def pyLen : Yaml → Except PyExc Nat
  | .str s => .ok s.length
  | .list xs => .ok xs.length
  | .map kvs => .ok kvs.length
  | v => .error (.typeError ("object of type '" ++ v.typeName ++ "' has no len()"))

mutual

/-- Python `repr(v)` of a parsed value (string escaping inside nested
strings is not modelled; no value printed by the scripts here needs it). -/
def pyRepr : Yaml → String
  | .null => "None"
  | .bool true => "True"
  | .bool false => "False"
  | .int n => toString n
  | .str s => "'" ++ s ++ "'"
  | .list xs => "[" ++ pyReprList xs ++ "]"
  | .map kvs => "\x7b" ++ pyReprMap kvs ++ "\x7d"

/-- Comma-separated `repr`s of the elements of a list. -/
def pyReprList : List Yaml → String
  | [] => ""
  | [x] => pyRepr x
  | x :: y :: xs => pyRepr x ++ ", " ++ pyReprList (y :: xs)

/-- Comma-separated `'key': repr` pairs of a dict. -/
def pyReprMap : List (String × Yaml) → String
  | [] => ""
  | [(k, v)] => "'" ++ k ++ "': " ++ pyRepr v
  | (k, v) :: p :: kvs => "'" ++ k ++ "': " ++ pyRepr v ++ ", " ++ pyReprMap (p :: kvs)

end

/-- Python `str(v)` (what an f-string interpolates): the string itself for a
string, `repr`-style rendering for containers. -/
def pyStr : Yaml → String
  | .str s => s
  | v => pyRepr v

/-! ### The regexes of the scripts, compiled by hand

`re.match(p, s)` anchors at the start of `s` only; all patterns below also end
in `$`, which in Python matches at the end of the string or just before one
trailing newline.  `reFullMatch core s` therefore accepts `s` when `core`
accepts all of `s`, or all of `s` minus a single trailing newline. -/

/-- `$`-semantics wrapper (see above). -/
def reFullMatch (core : List Char → Bool) (s : String) : Bool :=
  core s.data ||
    (if s.data.getLast? = some '\n' then core s.data.dropLast else false)

/-- The class `[a-z0-9]`. -/
def isLowerAlnum (c : Char) : Bool := ('a' ≤ c && c ≤ 'z') || c.isDigit

/-- Automaton for `[a-z0-9]+(-[a-z0-9]+)*` run over the whole list: the state
records whether the previous character was in `[a-z0-9]`. -/
def kebabAux : Bool → List Char → Bool
  | inRun, [] => inRun
  | inRun, c :: cs =>
    if isLowerAlnum c then kebabAux true cs
    else if c = '-' then inRun && kebabAux false cs
    else false

/-- `re.match(r'^[a-z0-9]+(-[a-z0-9]+)*$', s)` as a boolean. -/
def kebabMatch (s : String) : Bool := reFullMatch (kebabAux false) s

/-- Consume one-or-more digits (`\d+`, ASCII digits); `some rest` on success. -/
def digitRun (cs : List Char) : Option (List Char) :=
  let d := cs.takeWhile Char.isDigit
  if d.isEmpty then none else some (cs.drop d.length)

/-- `\d+\.\d+\.\d+` over the whole list. -/
def semverCore (cs : List Char) : Bool :=
  match digitRun cs with
  | some ('.' :: r) =>
    match digitRun r with
    | some ('.' :: r2) =>
      match digitRun r2 with
      | some [] => true
      | _ => false
    | _ => false
  | _ => false

/-- `re.match(r'^\d+\.\d+\.\d+$', s)` as a boolean. -/
def semverMatch (s : String) : Bool := reFullMatch semverCore s

/-- `\d{4}-\d{2}-\d{2}` over the whole list. -/
def dateCore : List Char → Bool
  | [a, b, c, d, h1, e, f, h2, g, k] =>
    a.isDigit && b.isDigit && c.isDigit && d.isDigit && h1 = '-' &&
      e.isDigit && f.isDigit && h2 = '-' && g.isDigit && k.isDigit
  | _ => false

/-- `re.match(r'^\d{4}-\d{2}-\d{2}$', s)` as a boolean. -/
def dateMatch (s : String) : Bool := reFullMatch dateCore s

/-- The class `[a-zA-Z0-9-]` of the submission path's lenient name pattern. -/
def isLooseNameChar (c : Char) : Bool :=
  ('a' ≤ c && c ≤ 'z') || ('A' ≤ c && c ≤ 'Z') || c.isDigit || c = '-'

/-- `[a-zA-Z0-9-]+` over the whole list. -/
def looseNameCore (cs : List Char) : Bool := !cs.isEmpty && cs.all isLooseNameChar

/-- `re.match(r'^[a-zA-Z0-9-]+$', s)` as a boolean. -/
def looseNameMatch (s : String) : Bool := reFullMatch looseNameCore s

/-- A match of `###\s+\d+\.` starting exactly here. -/
def stepHere : List Char → Bool
  | '#' :: '#' :: '#' :: r =>
    let w := r.takeWhile isPySpace
    if w.isEmpty then false
    else
      let r2 := r.drop w.length
      let d := r2.takeWhile Char.isDigit
      if d.isEmpty then false
      else match r2.drop d.length with
        | '.' :: _ => true
        | _ => false
  | _ => false

/-- `re.findall(r'###\s+\d+\.', s) != []`: a match at some position. -/
def hasStep : List Char → Bool
  | [] => false
  | c :: rest => stepHere (c :: rest) || hasStep rest

/-! ### `scripts/validate_skill.py` -/

namespace ValidateSkill

/-- `REQUIRED_FIELDS` of `validate_skill.py`. -/
def REQUIRED_FIELDS : List String := ["name", "version", "description", "category", "tags", "author"]

/-- `REQUIRED_SECTIONS` of `validate_skill.py`. -/
def REQUIRED_SECTIONS : List String :=
  ["## Overview", "## Task Description", "## Steps", "## Expected Output", "## Success Criteria"]

/-- `RECOMMENDED_SECTIONS` of `validate_skill.py`. -/
def RECOMMENDED_SECTIONS : List String :=
  ["## Prerequisites", "## Troubleshooting", "## Related Skills", "## References"]

/-- `VALID_CATEGORIES` of `validate_skill.py`. -/
def VALID_CATEGORIES : List String :=
  ["benchmarking", "data-engineering", "web-development", "automation", "ml-ops",
   "devops", "testing", "database", "security"]

/-- `VALID_DIFFICULTIES` of `validate_skill.py`. -/
def VALID_DIFFICULTIES : List String := ["beginner", "intermediate", "advanced"]

/-- Python `str(VALID_CATEGORIES)`, as interpolated into the category warning. -/
def CATEGORIES_REPR : String :=
  "['benchmarking', 'data-engineering', 'web-development', 'automation', 'ml-ops', 'devops', 'testing', 'database', 'security']"

/-- Python `str(VALID_DIFFICULTIES)`, as interpolated into the difficulty warning. -/
def DIFFICULTIES_REPR : String := "['beginner', 'intermediate', 'advanced']"

/-- `f"Missing required metadata field: '{field}'"`. -/
def missingFieldMsg (f : String) : String :=
  "Missing required metadata field: '" ++ (f ++ "'")

/-- `f"Empty required metadata field: '{field}'"`. -/
def emptyFieldMsg (f : String) : String :=
  "Empty required metadata field: '" ++ (f ++ "'")

/-- `f"Name must be kebab-case (lowercase with hyphens): '{name}'"`. -/
def kebabMsg (n : String) : String :=
  "Name must be kebab-case (lowercase with hyphens): '" ++ (n ++ "'")

/-- `f"Filename '{skill_path.name}' should match name '{expected_filename}'"`. -/
def filenameMsg (fileName n : String) : String :=
  "Filename '" ++ (fileName ++ ("' should match name '" ++ (n ++ ".md'")))

/-- `f"Version must follow semantic versioning (X.Y.Z): '{version}'"`. -/
def versionMsg (v : String) : String :=
  "Version must follow semantic versioning (X.Y.Z): '" ++ (v ++ "'")

/-- `f"Missing required section: '{section}'"`. -/
def secMsg (s : String) : String := "Missing required section: '" ++ (s ++ "'")

/-- `f"Missing recommended section: '{section}'"`. -/
def recMsg (s : String) : String := "Missing recommended section: '" ++ (s ++ "'")

/-- One iteration of the loop over `REQUIRED_FIELDS` (lines 100-104):
`field in metadata` and `metadata[field]` follow Python semantics and can
raise on non-container metadata. -/
def fieldCheck (metadata : Yaml) (f : String) : Except PyExc (List String) :=
  match pyIn f metadata with
  | .error e => .error e
  | .ok mem =>
    if !mem then .ok [missingFieldMsg f]
    else
      match pyGetItem metadata f with
      | .error e => .error e
      | .ok v => .ok (if v.truthy then [] else [emptyFieldMsg f])

/-- The loop over `REQUIRED_FIELDS` (lines 100-104). -/
def requiredFieldErrorsAux (metadata : Yaml) : List String → Except PyExc (List String)
  | [] => .ok []
  | f :: fs =>
    match fieldCheck metadata f with
    | .error e => .error e
    | .ok hs =>
      match requiredFieldErrorsAux metadata fs with
      | .error e => .error e
      | .ok rest => .ok (hs ++ rest)

/-- Lines 100-104 of `validate_skill.py`. -/
def requiredFieldErrors (metadata : Yaml) : Except PyExc (List String) :=
  requiredFieldErrorsAux metadata REQUIRED_FIELDS

/-- Lines 107-117: the kebab-case pattern check and the filename check.
`re.match` raises `TypeError` when the name is not a string. -/
def nameChecks (fileName : String) (metadata : Yaml) : Except PyExc (List String) :=
  match pyIn "name" metadata with
  | .error e => .error e
  | .ok false => .ok []
  | .ok true =>
    match pyGetItem metadata "name" with
    | .error e => .error e
    | .ok (.str n) =>
      .ok ((if kebabMatch n then [] else [kebabMsg n]) ++
           (if fileName = n ++ ".md" then [] else [filenameMsg fileName n]))
    | .ok v =>
      .error (.typeError ("expected string or bytes-like object, got '" ++ v.typeName ++ "'"))

/-- Lines 120-123: the semantic-version pattern check; `re.match` raises
`TypeError` when the version is not a string. -/
def versionChecks (metadata : Yaml) : Except PyExc (List String) :=
  match pyIn "version" metadata with
  | .error e => .error e
  | .ok false => .ok []
  | .ok true =>
    match pyGetItem metadata "version" with
    | .error e => .error e
    | .ok (.str v) => .ok (if semverMatch v then [] else [versionMsg v])
    | .ok v =>
      .error (.typeError ("expected string or bytes-like object, got '" ++ v.typeName ++ "'"))

/-- Lines 126-131: description length warnings (`len` raises on unsized
values). -/
def descriptionWarnings (metadata : Yaml) : Except PyExc (List String) :=
  match pyIn "description" metadata with
  | .error e => .error e
  | .ok false => .ok []
  | .ok true =>
    match pyGetItem metadata "description" with
    | .error e => .error e
    | .ok v =>
      match pyLen v with
      | .error e => .error e
      | .ok n =>
        .ok (if n < 50 then
               ["Description is too short (" ++ (toString n ++ " chars, recommended: 50-200)")]
             else if n > 200 then
               ["Description is too long (" ++ (toString n ++ " chars, recommended: 50-200)")]
             else [])

/-- Lines 134-141: category warnings (membership in `VALID_CATEGORIES` and
the directory-name comparison never raise). -/
def categoryWarnings (parentName : String) (metadata : Yaml) : Except PyExc (List String) :=
  match pyIn "category" metadata with
  | .error e => .error e
  | .ok false => .ok []
  | .ok true =>
    match pyGetItem metadata "category" with
    | .error e => .error e
    | .ok cat =>
      .ok ((if VALID_CATEGORIES.any (fun c => pyEqStr c cat) then []
            else ["Category '" ++ (pyStr cat ++ ("' not in standard list: " ++ CATEGORIES_REPR))]) ++
           (if pyEqStr parentName cat then []
            else ["File in '" ++ (parentName ++ ("' directory but category is '" ++ (pyStr cat ++ "'")))]))

/-- Lines 144-151: the `tags` checks — an error when the value is not a list,
warnings on the length otherwise.  Returns `(errors, warnings)`. -/
def tagsChecks (metadata : Yaml) : Except PyExc (List String × List String) :=
  match pyIn "tags" metadata with
  | .error e => .error e
  | .ok false => .ok ([], [])
  | .ok true =>
    match pyGetItem metadata "tags" with
    | .error e => .error e
    | .ok (.list xs) =>
      .ok ([],
        if xs.length < 3 then
          ["Should have at least 3 tags (found " ++ (toString xs.length ++ ")")]
        else if xs.length > 10 then
          ["Should have at most 10 tags (found " ++ (toString xs.length ++ ")")]
        else [])
    | .ok _ => .ok (["Tags must be a list"], [])

/-- Lines 154-157: difficulty warning. -/
def difficultyWarnings (metadata : Yaml) : Except PyExc (List String) :=
  match pyIn "difficulty" metadata with
  | .error e => .error e
  | .ok false => .ok []
  | .ok true =>
    match pyGetItem metadata "difficulty" with
    | .error e => .error e
    | .ok d =>
      .ok (if d.truthy && !(VALID_DIFFICULTIES.any fun c => pyEqStr c d) then
             ["Difficulty '" ++ (pyStr d ++ ("' should be one of: " ++ DIFFICULTIES_REPR))]
           else [])

/-- Lines 160-163 for one of `created`/`updated`: date-format warning;
`re.match` raises `TypeError` on a truthy non-string value. -/
def dateWarnings1 (metadata : Yaml) (f : String) : Except PyExc (List String) :=
  match pyIn f metadata with
  | .error e => .error e
  | .ok false => .ok []
  | .ok true =>
    match pyGetItem metadata f with
    | .error e => .error e
    | .ok v =>
      if !v.truthy then .ok []
      else
        match v with
        | .str s => .ok (if dateMatch s then [] else [f ++ " should be in YYYY-MM-DD format"])
        | w => .error (.typeError ("expected string or bytes-like object, got '" ++ w.typeName ++ "'"))

/-- Lines 160-163, both date fields. -/
def dateWarnings (metadata : Yaml) : Except PyExc (List String) :=
  match dateWarnings1 metadata "created" with
  | .error e => .error e
  | .ok w1 =>
    match dateWarnings1 metadata "updated" with
    | .error e => .error e
    | .ok w2 => .ok (w1 ++ w2)

/-- Lines 166-168: one error per required section whose text does not occur
in the body (a plain substring test in the source). -/
def sectionErrors (body : String) : List String :=
  (REQUIRED_SECTIONS.filter fun s => !strIn s body).map secMsg

/-- Lines 171-173. -/
def recommendedWarnings (body : String) : List String :=
  (RECOMMENDED_SECTIONS.filter fun s => !strIn s body).map recMsg

/-- Lines 176-177. -/
def codeBlockWarnings (body : String) : List String :=
  if strIn "```" body then []
  else ["No code blocks found - consider adding code examples"]

/-- Lines 180-185: the numbered-steps warning.  The source takes the text
after `## Steps` and before the next `##`, then looks for `###\s+\d+\.`. -/
def stepsWarnings (body : String) : List String :=
  if strIn "## Steps" body then
    let afterSteps := (pySplit body "## Steps" 1).getD 1 ""
    let stepsSection := (pySplit afterSteps "##" 1).getD 0 ""
    if hasStep stepsSection.data then []
    else ["Steps section should use numbered subsections (### 1., ### 2., etc.)"]
  else []

/-- Lines 188-190. -/
def bodyLengthWarnings (body : String) : List String :=
  let n := (pyStrip body).length
  if n < 1000 then
    ["Skill content seems short (" ++ (toString n ++ " chars) - consider adding more detail")]
  else []

/-- Lines 99-192 of `validate_skill.py`: everything after the frontmatter has
been parsed and the `metadata` mapping extracted.  Errors and warnings are
accumulated in exactly the source's order; a `TypeError` raised by any check
aborts the whole call (this part of the source is outside the `try`). -/
def validateParsed (fileName parentName : String) (metadata : Yaml) (body : String) :
    Except PyExc (List String × List String) :=
  match requiredFieldErrors metadata with
  | .error e => .error e
  | .ok e1 =>
    match nameChecks fileName metadata with
    | .error e => .error e
    | .ok e2 =>
      match versionChecks metadata with
      | .error e => .error e
      | .ok e3 =>
        match descriptionWarnings metadata with
        | .error e => .error e
        | .ok w1 =>
          match categoryWarnings parentName metadata with
          | .error e => .error e
          | .ok w2 =>
            match tagsChecks metadata with
            | .error e => .error e
            | .ok (e4, w3) =>
              match difficultyWarnings metadata with
              | .error e => .error e
              | .ok w4 =>
                match dateWarnings metadata with
                | .error e => .error e
                | .ok w5 =>
                  .ok (e1 ++ e2 ++ e3 ++ e4 ++ sectionErrors body,
                       w1 ++ w2 ++ w3 ++ w4 ++ w5 ++ recommendedWarnings body ++
                         codeBlockWarnings body ++ stepsWarnings body ++ bodyLengthWarnings body)

deriving instance DecidableEq for Except

/-- The skill file as `validate_skill` sees it: display path, `Path.name`,
`Path.parent.name`, whether the file exists, and the result of reading it
(`.error m` models an `OSError` with message `m`). -/
structure SkillFile where
  pathStr : String
  fileName : String
  parentName : String
  fileExists : Bool
  readResult : Except String String
deriving Repr, DecidableEq

/-- `validate_skill` of `scripts/validate_skill.py` (lines 47-192).  `sl` is
the external `yaml.safe_load` (see the module comment).  A normal return is
`.ok (errors, warnings)`; `.error` is an exception escaping the function. -/
def validate_skill (sl : String → Except String Yaml) (f : SkillFile) :
    Except PyExc (List String × List String) :=
  if !f.fileExists then .ok (["File not found: " ++ f.pathStr], [])
  else
    match f.readResult with
    | .error e => .ok (["Failed to read file: " ++ e], [])
    | .ok content =>
      if !pyStartsWith content "---" then
        .ok (["Missing YAML frontmatter (must start with '---')"], [])
      else
        let parts := pySplit content "---" 2
        if parts.length < 3 then
          .ok (["Invalid YAML frontmatter structure (must have closing '---')"], [])
        else
          let frontmatter := parts.getD 1 ""
          let body := parts.getD 2 ""
          match sl frontmatter with
          | .error e => .ok (["Invalid YAML syntax: " ++ e], [])
          | .ok data =>
            if !data.truthy then .ok (["Empty YAML frontmatter"], [])
            else
              match yamlDictGet data "metadata" (.map []) with
              | .error (.attributeError m) => .ok (["Failed to parse frontmatter: " ++ m], [])
              | .error e => .error e
              | .ok metadata =>
                if !metadata.truthy then
                  .ok (["Missing 'metadata' section in YAML frontmatter"], [])
                else validateParsed f.fileName f.parentName metadata body

/-- The parse phase of `validate_skill` in isolation: `some (metadata, body)`
exactly when the run reaches the field checks of `validateParsed`, with the
`metadata` value and body text it reaches them with. -/
def parseChain (sl : String → Except String Yaml) (content : String) : Option (Yaml × String) :=
  if !pyStartsWith content "---" then none
  else
    let parts := pySplit content "---" 2
    if parts.length < 3 then none
    else
      match sl (parts.getD 1 "") with
      | .error _ => none
      | .ok data =>
        if !data.truthy then none
        else
          match yamlDictGet data "metadata" (.map []) with
          | .error _ => none
          | .ok metadata =>
            if !metadata.truthy then none
            else some (metadata, parts.getD 2 "")

end ValidateSkill

/-! ### `scripts/generate_index.py` -/

namespace GenerateIndex

/-- A file found by `skills_dir.rglob('*.md')`: its repository-relative path
as the list of its components (e.g. `["skills", "testing", "a.md"]`), and the
result of reading it (`.error m` models a raised `OSError`). -/
structure IndexFile where
  parts : List String
  readResult : Except String String
deriving Repr, DecidableEq

/-- Python `str(skill_file)`: the components joined by `/`. -/
def joinPath : List String → String
  | [] => ""
  | [p] => p
  | p :: q :: rest => p ++ "/" ++ joinPath (q :: rest)

/-- Python `str(skill_file)`. -/
def IndexFile.pathStr (f : IndexFile) : String := joinPath f.parts

/-- Python `skill_file.parent.name`: the next-to-last path component. -/
def IndexFile.parentName (f : IndexFile) : String :=
  (f.parts.dropLast.getLast?).getD ""

/-- `extract_metadata` of `generate_index.py` (lines 12-39).  The whole body
is inside `try ... except Exception`, so every failure — unreadable file,
missing or unterminated frontmatter, YAML error, falsy document, missing
`metadata` key, non-dict document — yields `None`. -/
def extract_metadata (sl : String → Except String Yaml) (f : IndexFile) : Option Yaml :=
  match f.readResult with
  | .error _ => none
  | .ok content =>
    if !pyStartsWith content "---" then none
    else
      let parts := pySplit content "---" 2
      if parts.length < 3 then none
      else
        match sl (parts.getD 1 "") with
        | .error _ => none
        | .ok data =>
          if !data.truthy then none
          else
            match pyIn "metadata" data with
            | .error _ => none
            | .ok mem =>
              if !mem then none
              else
                match yamlDictGet data "metadata" (.map []) with
                | .error _ => none
                | .ok md => some md

/-- The ten metadata fields a catalog entry copies. -/
def INDEX_FIELDS : List String :=
  ["name", "version", "description", "category", "tags", "author",
   "created", "updated", "difficulty", "estimated_time"]

/-- The `skill_entry` dict literal of `generate_index.py` (lines 73-86), as an
association list in source order.  Each `metadata.get(...)` raises
`AttributeError` when `metadata` is not a dict — the first one already does,
and this code is NOT inside any `try`. -/
def buildEntry (md : Yaml) (category pathStr baseUrl : String) :
    Except PyExc (List (String × Yaml)) :=
  match yamlDictGet md "name" (.str "") with
  | .error e => .error e
  | .ok name =>
    match yamlDictGet md "version" (.str "1.0.0") with
    | .error e => .error e
    | .ok version =>
      match yamlDictGet md "description" (.str "") with
      | .error e => .error e
      | .ok description =>
        match yamlDictGet md "category" (.str category) with
        | .error e => .error e
        | .ok cat =>
          match yamlDictGet md "tags" (.list []) with
          | .error e => .error e
          | .ok tags =>
            match yamlDictGet md "author" (.str "unknown") with
            | .error e => .error e
            | .ok author =>
              match yamlDictGet md "created" (.str "") with
              | .error e => .error e
              | .ok created =>
                match yamlDictGet md "updated" (.str "") with
                | .error e => .error e
                | .ok updated =>
                  match yamlDictGet md "difficulty" (.str "") with
                  | .error e => .error e
                  | .ok difficulty =>
                    match yamlDictGet md "estimated_time" (.str "") with
                    | .error e => .error e
                    | .ok estimated =>
                      .ok [("name", name), ("version", version),
                           ("description", description), ("category", cat),
                           ("tags", tags), ("author", author),
                           ("created", created), ("updated", updated),
                           ("difficulty", difficulty), ("estimated_time", estimated),
                           ("path", .str pathStr),
                           ("url", .str (baseUrl ++ "/" ++ pathStr))]

/-- One iteration of the loop of `generate_index` (lines 63-100) on the
accumulated `(skills, skill_count, error_count)`. -/
def processOne (sl : String → Except String Yaml) (baseUrl : String) (f : IndexFile)
    (skills : List (List (String × Yaml))) (cnt errs : Nat) :
    Except PyExc (List (List (String × Yaml)) × Nat × Nat) :=
  match extract_metadata sl f with
  | none => .ok (skills, cnt, errs + 1)
  | some md =>
    if !md.truthy then .ok (skills, cnt, errs + 1)
    else
      match buildEntry md f.parentName f.pathStr baseUrl with
      | .error e => .error e
      | .ok entry =>
        let name := (List.lookup "name" entry).getD .null
        if !name.truthy then .ok (skills, cnt, errs + 1)
        else
          let desc := (List.lookup "description" entry).getD .null
          if !desc.truthy then .ok (skills, cnt, errs + 1)
          else .ok (skills ++ [entry], cnt + 1, errs)

/-- The loop of `generate_index` over the (already sorted) file list. -/
def processSkillsAux (sl : String → Except String Yaml) (baseUrl : String) :
    List (List (String × Yaml)) × Nat × Nat → List IndexFile →
      Except PyExc (List (List (String × Yaml)) × Nat × Nat)
  | acc, [] => .ok acc
  | (skills, cnt, errs), f :: fs =>
    match processOne sl baseUrl f skills cnt errs with
    | .error e => .error e
    | .ok acc2 => processSkillsAux sl baseUrl acc2 fs

/-- The loop of `generate_index`, from the empty accumulator. -/
def processSkills (sl : String → Except String Yaml) (baseUrl : String)
    (files : List IndexFile) : Except PyExc (List (List (String × Yaml)) × Nat × Nat) :=
  processSkillsAux sl baseUrl ([], 0, 0) files

/-- `pathlib.Path` ordering on two paths: componentwise string comparison
(Python compares the tuples of parts). -/
def lexLe : List String → List String → Bool
  | [], _ => true
  | _ :: _, [] => false
  | a :: as, b :: bs => if a < b then true else if a = b then lexLe as bs else false

/-- Insertion step of the sort standing in for Python's `sorted`. -/
def insertFile (f : IndexFile) : List IndexFile → List IndexFile
  | [] => [f]
  | g :: gs => if lexLe f.parts g.parts then f :: g :: gs else g :: insertFile f gs

/-- `sorted(skills_dir.rglob('*.md'))`: a sort of the enumerated files by
path.  (Python's `sorted` is external; any sort agrees with this one on lists
of pathwise-distinct files — see `sortFiles_perm`/`sortFiles_sorted` below.) -/
def sortFiles : List IndexFile → List IndexFile
  | [] => []
  | f :: fs => insertFile f (sortFiles fs)

/-- The index document `generate_index` writes: schema version, `generated`
timestamp, and the catalog entries in scan order. -/
structure IndexDoc where
  version : String
  generated : String
  skills : List (List (String × Yaml))
deriving Repr

/-- The `base_url` default of `generate_index`. -/
def DEFAULT_BASE_URL : String := "https://raw.githubusercontent.com/v1k22/skillhub-registry/main"

/-- `generate_index` of `generate_index.py` (lines 41-131): `dirExists` is
`skills_dir.exists()`, `files` the enumeration of `skills_dir.rglob('*.md')`
(in arbitrary filesystem order — the source sorts it), `now` the timestamp
`datetime.now().isoformat()`.  Returns the written index document (when one
is written) and the boolean result `skill_count > 0`; `.error` is an
exception escaping the function and aborting the run. -/
def generate_index (sl : String → Except String Yaml) (baseUrl : String)
    (dirExists : Bool) (files : List IndexFile) (now : String) :
    Except PyExc (Option IndexDoc × Bool) :=
  if !dirExists then .ok (none, false)
  else
    match processSkills sl baseUrl (sortFiles files) with
    | .error e => .error e
    | .ok (skills, cnt, _errs) => .ok (some ⟨"1.0.0", now, skills⟩, decide (0 < cnt))

end GenerateIndex

/-! ### `.github/scripts/process_skill_submission.py` -/

namespace ProcessSubmission

/-- A case-insensitive `^##\s+<section>` match starting exactly here
(`re.IGNORECASE` lowers both sides; the section names are ASCII words). -/
def secHere (sec : List Char) (cs : List Char) : Bool :=
  match cs with
  | '#' :: '#' :: r =>
    let w := r.takeWhile isPySpace
    !w.isEmpty && (sec.map pyLowerChar).isPrefixOf ((r.drop w.length).map pyLowerChar)
  | _ => false

/-- Scan for `re.search(r'^##\s+<sec>', content, re.MULTILINE | re.IGNORECASE)`:
the flag says whether the current position is a line start. -/
def scanSections (sec : List Char) : Bool → List Char → Bool
  | _, [] => false
  | atStart, c :: rest => (atStart && secHere sec (c :: rest)) || scanSections sec (c == '\n') rest

/-- `re.search(r'^##\s+<sec>', content, re.MULTILINE | re.IGNORECASE)` found
a match somewhere. -/
def hasSecCI (sec : String) (content : String) : Bool := scanSections sec.data true content.data

/-- Index of the last occurrence of `c`. -/
def lastIdxOf (c : Char) : List Char → Option Nat
  | [] => none
  | x :: xs =>
    match lastIdxOf c xs with
    | some i => some (i + 1)
    | none => if x = c then some 0 else none

/-- Match `\s*\n` greedily with backtracking at the head of `cs`: the number
of characters the regex engine consumes — through the LAST newline of the
leading whitespace run — or `none` when that run holds no newline. -/
def wsNl (cs : List Char) : Option Nat :=
  match lastIdxOf '\n' (cs.takeWhile isPySpace) with
  | some i => some (i + 1)
  | none => none

/-- The alternatives of `(?:markdown|md|yaml)?` in the order the engine
tries them (the three branches, then the empty option). -/
def FENCE_TAGS : List String := ["markdown", "md", "yaml", ""]

/-- Try each language-tag alternative at the head of `rest`, followed by
`\s*\n`; the number of characters consumed by the first that succeeds. -/
def tryTags (rest : List Char) : List String → Option Nat
  | [] => none
  | t :: ts =>
    if t.data.isPrefixOf rest then
      match wsNl (rest.drop t.length) with
      | some j => some (t.length + j)
      | none => tryTags rest ts
    else tryTags rest ts

/-- Length of the match of `re.sub`'s pattern `^```(?:markdown|md|yaml)?\s*\n`
at the start of `s`, if any. -/
def openFenceLen (s : String) : Option Nat :=
  if ("```" : String).data.isPrefixOf s.data then
    match tryTags (s.data.drop 3) FENCE_TAGS with
    | some k => some (3 + k)
    | none => none
  else none

/-- `re.sub(r'^```(?:markdown|md|yaml)?\s*\n', '', s)`. -/
def stripOpenFence (s : String) : String :=
  match openFenceLen s with
  | some k => ⟨s.data.drop k⟩
  | none => s

/-- First position where the pattern of the closing-fence `re.sub` matches:
a newline, three backticks, then nothing but whitespace up to the end of the
string (see `stripCloseFence`). -/
def closeIdx : List Char → Option Nat
  | [] => none
  | c :: rest =>
    if ("\n```" : String).data.isPrefixOf (c :: rest) && ((c :: rest).drop 4).all isPySpace
    then some 0
    else
      match closeIdx rest with
      | none => none
      | some i => some (i + 1)

/-- `re.sub(r'\n```\s*$', '', s)`: the match, when there is one, runs to the
end of the string, so substituting the empty string truncates there. -/
def stripCloseFence (s : String) : String :=
  match closeIdx s.data with
  | some p => ⟨s.data.take p⟩
  | none => s

/-- `extract_skill_content` of `process_skill_submission.py` (lines 14-46). -/
def extract_skill_content (body : String) : String :=
  match pyFindFrom body "### Skill Markdown" 0 with
  | none => ""
  | some i =>
    let st := i + ("### Skill Markdown" : String).length
    let content :=
      match pyFindFrom body "\n### Category" st with
      | none => pySliceFrom body st
      | some e => pySlice body st e
    pyStrip (stripCloseFence (stripOpenFence (pyStrip content)))

/-- The slicing-and-first-strip stage of `extract_skill_content` (lines
24-40) in isolation: the raw `Skill Markdown` field value before the fence
stripping. -/
def extractRaw (body : String) : String :=
  match pyFindFrom body "### Skill Markdown" 0 with
  | none => ""
  | some i =>
    let st := i + ("### Skill Markdown" : String).length
    let content :=
      match pyFindFrom body "\n### Category" st with
      | none => pySliceFrom body st
      | some e => pySlice body st e
    pyStrip content

/-- `extract_category` of `process_skill_submission.py` (lines 77-111). -/
def extract_category (body : String) : String :=
  let startOpt :=
    match pyFindFrom body "\n### Category\n" 0 with
    | some i => some (i + ("\n### Category\n" : String).length)
    | none =>
      match pyFindFrom body "### Category\n" 0 with
      | some i => some (i + ("### Category\n" : String).length)
      | none => none
  match startOpt with
  | none => ""
  | some st =>
    let e0 := body.data.length
    let e1 :=
      match pyFindFrom body "\n### Custom Category" st with
      | some i => if i < e0 then i else e0
      | none => e0
    let e2 :=
      match pyFindFrom body "\n### Submission Checklist" st with
      | some i => if i < e1 then i else e1
      | none => e1
    let category := pyStrip (pySlice body st e2)
    if strLower category = "other" then
      match pyFindFrom body "### Custom Category" 0 with
      | some cs =>
        let cstart :=
          match pyFindFrom body "\n" cs with
          | some i => i + 1
          | none => 0
        let cend :=
          match pyFindFrom body "\n### " cstart with
          | some i => i
          | none => body.data.length
        let custom := pyStrip (pySlice body cstart cend)
        if !custom.isEmpty then strReplaceSpaceHyphen (strLower custom)
        else strLower category
      | none => strLower category
    else strLower category

/-- The located start of the selected-category field (lines 80-88), in
isolation. -/
def selectedCategoryStart (body : String) : Option Nat :=
  match pyFindFrom body "\n### Category\n" 0 with
  | some i => some (i + ("\n### Category\n" : String).length)
  | none =>
    match pyFindFrom body "### Category\n" 0 with
    | some i => some (i + ("### Category\n" : String).length)
    | none => none

/-- The end of the selected-category field (lines 90-95), in isolation. -/
def selectedCategoryEnd (body : String) (st : Nat) : Nat :=
  let e0 := body.data.length
  let e1 :=
    match pyFindFrom body "\n### Custom Category" st with
    | some i => if i < e0 then i else e0
    | none => e0
  match pyFindFrom body "\n### Submission Checklist" st with
  | some i => if i < e1 then i else e1
  | none => e1

/-- The selected-category field value (stripped), when its heading is
present: lines 80-97 of the source in isolation. -/
def selectedCategory (body : String) : Option String :=
  match selectedCategoryStart body with
  | none => none
  | some st => some (pyStrip (pySlice body st (selectedCategoryEnd body st)))

/-- The custom-category field value (stripped), when its heading is present:
lines 101-107 of the source in isolation. -/
def customCategory (body : String) : Option String :=
  match pyFindFrom body "### Custom Category" 0 with
  | none => none
  | some cs =>
    let cstart :=
      match pyFindFrom body "\n" cs with
      | some i => i + 1
      | none => 0
    let cend :=
      match pyFindFrom body "\n### " cstart with
      | some i => i
      | none => body.data.length
    some (pyStrip (pySlice body cstart cend))

/-- The first position where `\n---\s*\n` matches (the pattern of
`parse_yaml_frontmatter`): a `\n---` whose following whitespace run holds a
newline. -/
def fmEndIdx : List Char → Option Nat
  | [] => none
  | c :: rest =>
    if ("\n---" : String).data.isPrefixOf (c :: rest) &&
        (((c :: rest).drop 4).takeWhile isPySpace).contains '\n'
    then some 0
    else
      match fmEndIdx rest with
      | none => none
      | some i => some (i + 1)

/-- `parse_yaml_frontmatter` of `process_skill_submission.py` (lines
114-129).  A `yaml.YAMLError` is caught and yields `None`; `safe_load`
returning Python `None` (modelled `Yaml.null`) is indistinguishable from the
function's own `None` returns, so both are `none` here. -/
def parse_yaml_frontmatter (sl : String → Except String Yaml) (content : String) : Option Yaml :=
  if !pyStartsWith content "---" then none
  else
    match fmEndIdx (content.data.drop 3) with
    | none => none
    | some p =>
      match sl ⟨(content.data.drop 3).take p⟩ with
      | .error _ => none
      | .ok .null => none
      | .ok v => some v

/-- The `required_fields` list of the submission validator (line 161). -/
def required_fields : List String := ["name", "description", "category", "tags", "author"]

/-- One iteration of lines 162-164:
`if field not in metadata or not metadata[field]` (the message has no quotes
around the field name in this script). -/
def subFieldCheck (metadata : Yaml) (f : String) : Except PyExc (List String) :=
  match pyIn f metadata with
  | .error e => .error e
  | .ok mem =>
    if !mem then .ok ["Missing required metadata field: " ++ f]
    else
      match pyGetItem metadata f with
      | .error e => .error e
      | .ok v => .ok (if v.truthy then [] else ["Missing required metadata field: " ++ f])

/-- The loop of lines 162-164. -/
def requiredErrorsAux (metadata : Yaml) : List String → Except PyExc (List String)
  | [] => .ok []
  | f :: fs =>
    match subFieldCheck metadata f with
    | .error e => .error e
    | .ok hs =>
      match requiredErrorsAux metadata fs with
      | .error e => .error e
      | .ok rest => .ok (hs ++ rest)

/-- Lines 170-177: the lenient name check.  `re.match` raises `TypeError`
on a truthy non-string name. -/
def nameErrors (metadata : Yaml) : Except PyExc (List String) :=
  match yamlDictGet metadata "name" (.str "") with
  | .error e => .error e
  | .ok name =>
    if !name.truthy then .ok []
    else
      match name with
      | .str s =>
        .ok (if !looseNameMatch s then
               ["Skill name should only contain letters, numbers, and hyphens. Got: " ++ s]
             else if strIn " " s then
               ["Skill name cannot contain spaces. Use hyphens instead. Got: " ++ s]
             else [])
      | v => .error (.typeError ("expected string or bytes-like object, got '" ++ v.typeName ++ "'"))

/-- Lines 180-182: the tags type check. -/
def tagsErrors (metadata : Yaml) : Except PyExc (List String) :=
  match yamlDictGet metadata "tags" (.list []) with
  | .error e => .error e
  | .ok tags =>
    .ok (if tags.truthy && !tags.isList then
           ["Tags must be a list/array (e.g., [\"tag1\", \"tag2\"])"]
         else [])

/-- Lines 185-189: the recommended-section warnings (the whole document is
searched, frontmatter included, as in the source). -/
def sectionWarnings (content : String) : List String :=
  (["Overview", "Steps"].filter fun s => !hasSecCI s content).map
    fun s => "Recommended section missing: ## " ++ s

/-- `validate_skill` of `process_skill_submission.py` (lines 132-191).
Returns `(is_valid, errors, warnings)`; `.error` is an exception escaping
the function. -/
def validate_skill (sl : String → Except String Yaml) (content : String) :
    Except PyExc (Bool × List String × List String) :=
  if !pyStartsWith content "---" then
    .ok (false, ["Skill must start with YAML frontmatter (---)"], [])
  else
    match parse_yaml_frontmatter sl content with
    | none =>
      .ok (false,
        ["Invalid YAML frontmatter format. Make sure you have closing --- after the metadata."], [])
    | some frontmatter =>
      match yamlDictGet frontmatter "metadata" (.map []) with
      | .error e => .error e
      | .ok metadata =>
        if !metadata.truthy then
          .ok (false, ["Missing 'metadata' section in frontmatter"], [])
        else
          match requiredErrorsAux metadata required_fields with
          | .error e => .error e
          | .ok e1 =>
            match pyIn "version" metadata with
            | .error e => .error e
            | .ok vmem =>
              let w1 := if !vmem then ["Missing 'version' field - defaulting to 1.0.0"] else []
              match nameErrors metadata with
              | .error e => .error e
              | .ok e2 =>
                match tagsErrors metadata with
                | .error e => .error e
                | .ok e3 =>
                  let errors := e1 ++ e2 ++ e3
                  .ok (errors.isEmpty, errors, w1 ++ sectionWarnings content)

end ProcessSubmission

/-! ### Concrete inputs

`safeLoadTable` instantiates the external `yaml.safe_load` for the concrete
documents used in the closed theorems below: each entry records what PyYAML
returns on exactly that frontmatter string (hand-checked against PyYAML's
resolution rules: plain scalars that look like integers parse as `int`, flow
sequences as lists, everything else here as strings).  Strings outside the
table — never reached by the closed theorems — map to `.ok .null`, which is
also what `safe_load` returns on an empty document. -/

/-- The concrete `yaml.safe_load` table (see above). -/
def safeLoadTable (s : String) : Except String Yaml :=
  if s = "\nmetadata:\n  name: demo-skill\n  version: 1\n" then
    .ok (.map [("metadata", .map [("name", .str "demo-skill"), ("version", .int 1)])])
  else if s = "\nmetadata:\n  name: good-skill\n  description: A fine skill\n" then
    .ok (.map [("metadata", .map [("name", .str "good-skill"), ("description", .str "A fine skill")])])
  else if s = "\nmetadata: 5\n" then
    .ok (.map [("metadata", .int 5)])
  else if s = "metadata:\n  name: x\n" then
    .ok (.map [("metadata", .map [("name", .str "x")])])
  else if s = "\nmetadata:\n  name: demo-skill\n  version: 1.0.0\n  description: d\n  category: testing\n  tags: [a, b, c]\n  author: al\n" then
    .ok (.map [("metadata", .map
      [("name", .str "demo-skill"), ("version", .str "1.0.0"), ("description", .str "d"),
       ("category", .str "testing"), ("tags", .list [.str "a", .str "b", .str "c"]),
       ("author", .str "al")])])
  else if s = "\nmetadata:\n  name: demo-skill\n  version: 1.0.0\n  description: d\n  category: testing\n  tags: abc\n  author: al\n" then
    .ok (.map [("metadata", .map
      [("name", .str "demo-skill"), ("version", .str "1.0.0"), ("description", .str "d"),
       ("category", .str "testing"), ("tags", .str "abc"), ("author", .str "al")])])
  else if s = "\nmetadata:\n  name: my-skill\n  category: testing\n  tags: [a]\n  author: al" then
    .ok (.map [("metadata", .map
      [("name", .str "my-skill"), ("category", .str "testing"),
       ("tags", .list [.str "a"]), ("author", .str "al")])])
  else if s = "\nmetadata:\n  name: alpha-skill\n  description: First one\n" then
    .ok (.map [("metadata", .map [("name", .str "alpha-skill"), ("description", .str "First one")])])
  else if s = "\nmetadata:\n  name: beta-skill\n  description: Second one\n" then
    .ok (.map [("metadata", .map [("name", .str "beta-skill"), ("description", .str "Second one")])])
  else .ok .null

/-- A skill file whose metadata holds `version: 1` (an int, a plausible YAML
slip for a version). -/
def docIntVersion : String :=
  "---\nmetadata:\n  name: demo-skill\n  version: 1\n---\n## Overview\nBody"

/-- `docIntVersion` on disk at `skills/testing/demo-skill.md`. -/
def fileIntVersion : ValidateSkill.SkillFile :=
  ⟨"skills/testing/demo-skill.md", "demo-skill.md", "testing", true, .ok docIntVersion⟩

/-- A well-formed skill file the index builder accepts. -/
def docGood : String :=
  "---\nmetadata:\n  name: good-skill\n  description: A fine skill\n---\nBody G"

/-- `docGood` at `skills/testing/good-skill.md`, as the index builder sees it. -/
def fileGood : GenerateIndex.IndexFile :=
  ⟨["skills", "testing", "good-skill.md"], .ok docGood⟩

/-- A skill file whose `metadata` key holds the scalar `5` instead of a
mapping. -/
def docBadMeta : String := "---\nmetadata: 5\n---\nBody B"

/-- `docBadMeta` at `skills/testing/zzz-bad.md`. -/
def fileBadMeta : GenerateIndex.IndexFile :=
  ⟨["skills", "testing", "zzz-bad.md"], .ok docBadMeta⟩

/-- A document that starts with `---` but whose first line is `---metadata:`,
not `---`: PyYAML still parses the frontmatter `metadata:\n  name: x` into a
mapping, so validation runs in full. -/
def docGluedFm : String := "---metadata:\n  name: x\n---\n## Overview"

/-- `docGluedFm` at `skills/testing/x.md`. -/
def fileGluedFm : ValidateSkill.SkillFile :=
  ⟨"skills/testing/x.md", "x.md", "testing", true, .ok docGluedFm⟩

/-- A document that does not start with `---` at all. -/
def docNoFm : String := "hello world"

/-- `docNoFm` at `skills/testing/a.md`. -/
def fileNoFm : ValidateSkill.SkillFile :=
  ⟨"skills/testing/a.md", "a.md", "testing", true, .ok docNoFm⟩

/-- A skill file with complete, well-typed metadata whose body has
`### Overview` (a level-3 heading) and no level-2 `## Overview` heading. -/
def docH3Overview : String :=
  "---\nmetadata:\n  name: demo-skill\n  version: 1.0.0\n  description: d\n  category: testing\n  tags: [a, b, c]\n  author: al\n---\n### Overview\nText"

/-- `docH3Overview` at `skills/testing/demo-skill.md`. -/
def fileH3Overview : ValidateSkill.SkillFile :=
  ⟨"skills/testing/demo-skill.md", "demo-skill.md", "testing", true, .ok docH3Overview⟩

/-- A skill file whose `tags` field holds the plain scalar `abc` instead of a
sequence. -/
def docTagsScalar : String :=
  "---\nmetadata:\n  name: demo-skill\n  version: 1.0.0\n  description: d\n  category: testing\n  tags: abc\n  author: al\n---\n## Overview\nText"

/-- `docTagsScalar` at `skills/testing/demo-skill.md`. -/
def fileTagsScalar : ValidateSkill.SkillFile :=
  ⟨"skills/testing/demo-skill.md", "demo-skill.md", "testing", true, .ok docTagsScalar⟩

/-- An issue body whose selected category is `Data Engineering` (with a
space, not the sentinel `Other`). -/
def bodySelected : String :=
  "### Skill Markdown\n\nX\n\n### Category\n\nData Engineering\n\n### Submission Checklist\n\n- ok"

/-- An issue body whose skill markdown is wrapped in a fence with language
tag `python` — a tag the submission script does not strip. -/
def bodyFencePython : String :=
  "### Skill Markdown\n\n```python\nprint(1)\n```\n\n### Category\n\nTesting\n"

/-- An issue body whose skill markdown is wrapped in a fence with language
tag `md` — one of the tags the submission script strips. -/
def bodyFenceMd : String :=
  "### Skill Markdown\n\n```md\nprint(1)\n```\n\n### Category\n\nTesting\n"

/-- A submission whose metadata lacks `description` (so the submission
validator reports at least one error). -/
def docSubmission : String :=
  "---\nmetadata:\n  name: my-skill\n  category: testing\n  tags: [a]\n  author: al\n---\n## Overview\nok"

/-- An indexable skill file at `skills/testing/alpha-skill.md`. -/
def docAlpha : String :=
  "---\nmetadata:\n  name: alpha-skill\n  description: First one\n---\nBody A"

/-- `docAlpha` as the index builder sees it. -/
def fileAlpha : GenerateIndex.IndexFile :=
  ⟨["skills", "testing", "alpha-skill.md"], .ok docAlpha⟩

/-- An indexable skill file at `skills/testing/beta-skill.md`. -/
def docBeta : String :=
  "---\nmetadata:\n  name: beta-skill\n  description: Second one\n---\nBody B"

/-- `docBeta` as the index builder sees it. -/
def fileBeta : GenerateIndex.IndexFile :=
  ⟨["skills", "testing", "beta-skill.md"], .ok docBeta⟩

/-! ### Generic helper lemmas -/

/-- Indexing an append stays in the left part below its length. -/
lemma list_getq_append {α : Type} (a b : List α) (i : Nat) (h : i < a.length) :
    (a ++ b)[i]? = a[i]? := by
  rw [List.getElem?_append]
  simp [h]

/-- Indexing an append of strings stays in the left part below its length. -/
lemma getq_append_left (a b : String) (i : Nat) (h : i < a.data.length) :
    (a ++ b).data[i]? = a.data[i]? := by
  rw [String.data_append]
  exact list_getq_append _ _ _ h

/-- Two strings with fixed distinct prefixes differ, whatever follows. -/
lemma append_lit_ne (p₁ r₁ p₂ r₂ : String) (i : Nat)
    (h₁ : i < p₁.data.length) (h₂ : i < p₂.data.length)
    (hne : p₁.data[i]? ≠ p₂.data[i]?) : p₁ ++ r₁ ≠ p₂ ++ r₂ := by
  intro h
  apply hne
  rw [← getq_append_left p₁ r₁ i h₁, ← getq_append_left p₂ r₂ i h₂, h]

/-- A fixed string differs from one with a differing fixed prefix. -/
lemma str_ne_append_lit (s p r : String) (i : Nat) (h₂ : i < p.data.length)
    (hne : s.data[i]? ≠ p.data[i]?) : s ≠ p ++ r := by
  intro h
  apply hne
  rw [← getq_append_left p r i h₂, h]

/-- `pyStartsWith` fails when the pattern differs from the fixed prefix of
the subject at some position. -/
lemma pyStartsWith_append_ne (pat lit rest : String) (i : Nat)
    (h₁ : i < pat.data.length) (h₂ : i < lit.data.length)
    (hne : pat.data[i]? ≠ lit.data[i]?) : pyStartsWith (lit ++ rest) pat = false := by
  unfold pyStartsWith
  cases hb : pat.data.isPrefixOf (lit ++ rest).data
  · rfl
  · exfalso
    obtain ⟨t, ht⟩ := List.isPrefixOf_iff_prefix.mp hb
    apply hne
    have h3 : (pat.data ++ t)[i]? = pat.data[i]? := list_getq_append _ _ _ h₁
    rw [← h3, ht, String.data_append, list_getq_append _ _ _ h₂]

/-- Containment of a one-character pattern is membership. -/
lemma listContains_singleton (c : Char) :
    ∀ l : List Char, listContains [c] l = true ↔ c ∈ l := by
  intro l
  induction l with
  | nil => simp [listContains, List.isEmpty]
  | cons x xs ih =>
    simp only [listContains, List.isPrefixOf, Bool.or_eq_true, List.mem_cons]
    constructor
    · rintro (h | h)
      · left
        simp only [Bool.and_eq_true, beq_iff_eq] at h
        exact h.1
      · right
        exact ih.mp h
    · rintro (h | h)
      · left
        simp [h, List.isPrefixOf]
      · right
        exact ih.mpr h

/-- A name accepted by the submission path's pattern `^[a-zA-Z0-9-]+$`
contains no space. -/
lemma looseName_no_space {s : String} (h : looseNameMatch s = true) : strIn " " s = false := by
  unfold looseNameMatch reFullMatch at h
  unfold strIn
  have hsp : (" " : String).data = [' '] := rfl
  rw [hsp]
  cases hb : listContains [' '] s.data
  · rfl
  · exfalso
    have hmem : ' ' ∈ s.data := (listContains_singleton ' ' s.data).mp hb
    simp only [Bool.or_eq_true] at h
    rcases h with hc | hc
    · unfold looseNameCore at hc
      simp only [Bool.and_eq_true] at hc
      have := List.all_eq_true.mp hc.2 _ hmem
      simp [isLooseNameChar] at this
    · by_cases hl : s.data.getLast? = some '\n'
      · rw [if_pos hl] at hc
        unfold looseNameCore at hc
        simp only [Bool.and_eq_true] at hc
        have hne : s.data ≠ [] := by
          intro h0
          rw [h0] at hl
          simp [List.getLast?] at hl
        have hlast : s.data.getLast hne = '\n' := by
          have := List.getLast?_eq_getLast s.data hne
          rw [hl] at this
          exact (Option.some.injEq _ _).mp this.symm
        have hsplit := List.dropLast_append_getLast hne
        rw [← hsplit] at hmem
        rcases List.mem_append.mp hmem with hm | hm
        · have := List.all_eq_true.mp hc.2 _ hm
          simp [isLooseNameChar] at this
        · rw [hlast] at hm
          simp at hm
      · rw [if_neg hl] at hc
        exact Bool.false_ne_true hc

/-! ### Structural lemmas about `ValidateSkill.validate_skill` -/

namespace ValidateSkill

/-- `secMsg` is injective. -/
lemma secMsg_inj {s t : String} (h : secMsg s = secMsg t) : s = t := by
  unfold secMsg at h
  have hd := congrArg String.data h
  rw [String.data_append, String.data_append, String.data_append, String.data_append] at hd
  exact String.ext (List.append_cancel_right (List.append_cancel_left hd))

/-- A missing-field message is never a missing-section message. -/
lemma missingFieldMsg_ne_secMsg (f s : String) : missingFieldMsg f ≠ secMsg s := by
  unfold missingFieldMsg secMsg
  exact append_lit_ne _ _ _ _ 17 (by decide) (by decide) (by decide)

/-- An empty-field message is never a missing-section message. -/
lemma emptyFieldMsg_ne_secMsg (f s : String) : emptyFieldMsg f ≠ secMsg s := by
  unfold emptyFieldMsg secMsg
  exact append_lit_ne _ _ _ _ 0 (by decide) (by decide) (by decide)

/-- A kebab-case message is never a missing-section message. -/
lemma kebabMsg_ne_secMsg (n s : String) : kebabMsg n ≠ secMsg s := by
  unfold kebabMsg secMsg
  exact append_lit_ne _ _ _ _ 0 (by decide) (by decide) (by decide)

/-- A filename message is never a missing-section message. -/
lemma filenameMsg_ne_secMsg (fn n s : String) : filenameMsg fn n ≠ secMsg s := by
  unfold filenameMsg secMsg
  exact append_lit_ne _ _ _ _ 0 (by decide) (by decide) (by decide)

/-- A version message is never a missing-section message. -/
lemma versionMsg_ne_secMsg (v s : String) : versionMsg v ≠ secMsg s := by
  unfold versionMsg secMsg
  exact append_lit_ne _ _ _ _ 0 (by decide) (by decide) (by decide)

/-- The tags error is never a missing-section message. -/
lemma tagsMsg_ne_secMsg (s : String) : "Tags must be a list" ≠ secMsg s := by
  unfold secMsg
  exact str_ne_append_lit _ _ _ 0 (by decide) (by decide)

/-- Shape of the errors a `fieldCheck` returns. -/
lemma mem_fieldCheck {md : Yaml} {f : String} {l : List String} {e : String}
    (h : fieldCheck md f = .ok l) (he : e ∈ l) :
    e = missingFieldMsg f ∨ e = emptyFieldMsg f := by
  unfold fieldCheck at h
  cases h1 : pyIn f md with
  | error ex => rw [h1] at h; exact absurd h (by simp)
  | ok mem =>
    rw [h1] at h
    cases mem with
    | false =>
      simp only [Bool.not_false, if_pos] at h
      injection h with h'
      subst h'
      rcases List.mem_singleton.mp he with rfl
      exact .inl rfl
    | true =>
      simp only [Bool.not_true, Bool.false_eq_true, if_false] at h
      cases h2 : pyGetItem md f with
      | error ex => rw [h2] at h; exact absurd h (by simp)
      | ok v =>
        rw [h2] at h
        injection h with h'
        subst h'
        cases hv : v.truthy <;> rw [hv] at he
        · rcases List.mem_singleton.mp he with rfl
          exact .inr rfl
        · exact absurd he (by simp)

/-- Shape of the errors the required-fields loop returns. -/
lemma mem_requiredFieldErrorsAux {md : Yaml} {e : String} :
    ∀ {fs : List String} {l : List String},
      requiredFieldErrorsAux md fs = .ok l → e ∈ l →
      ∃ f, e = missingFieldMsg f ∨ e = emptyFieldMsg f := by
  intro fs
  induction fs with
  | nil =>
    intro l h he
    unfold requiredFieldErrorsAux at h
    injection h with h'
    subst h'
    exact absurd he (by simp)
  | cons f fs ih =>
    intro l h he
    unfold requiredFieldErrorsAux at h
    cases h1 : fieldCheck md f with
    | error ex => rw [h1] at h; exact absurd h (by simp)
    | ok hs =>
      rw [h1] at h
      cases h2 : requiredFieldErrorsAux md fs with
      | error ex => rw [h2] at h; exact absurd h (by simp)
      | ok rest =>
        rw [h2] at h
        injection h with h'
        subst h'
        rcases List.mem_append.mp he with hm | hm
        · exact ⟨f, mem_fieldCheck h1 hm⟩
        · exact ih h2 hm

/-- Shape of the errors `nameChecks` returns. -/
lemma mem_nameChecks {fn : String} {md : Yaml} {l : List String} {e : String}
    (h : nameChecks fn md = .ok l) (he : e ∈ l) :
    (∃ n, e = kebabMsg n) ∨ ∃ n, e = filenameMsg fn n := by
  unfold nameChecks at h
  cases h1 : pyIn "name" md with
  | error ex => rw [h1] at h; exact absurd h (by simp)
  | ok mem =>
    rw [h1] at h
    cases mem with
    | false =>
      injection h with h'
      subst h'
      exact absurd he (by simp)
    | true =>
      cases h2 : pyGetItem md "name" with
      | error ex => rw [h2] at h; exact absurd h (by simp)
      | ok v =>
        rw [h2] at h
        cases v with
        | str n =>
          injection h with h'
          subst h'
          rcases List.mem_append.mp he with hm | hm
          · refine .inl ⟨n, ?_⟩
            cases hk : kebabMatch n <;> rw [hk] at hm
            · exact List.mem_singleton.mp hm
            · exact absurd hm (by simp)
          · refine .inr ⟨n, ?_⟩
            cases hf : decide (fn = n ++ ".md") with
            | true => rw [if_pos (of_decide_eq_true hf)] at hm; exact absurd hm (by simp)
            | false => rw [if_neg (of_decide_eq_false hf)] at hm; exact List.mem_singleton.mp hm
        | null => exact absurd h (by simp)
        | bool b => exact absurd h (by simp)
        | int n => exact absurd h (by simp)
        | list xs => exact absurd h (by simp)
        | map kvs => exact absurd h (by simp)

/-- Shape of the errors `versionChecks` returns. -/
lemma mem_versionChecks {md : Yaml} {l : List String} {e : String}
    (h : versionChecks md = .ok l) (he : e ∈ l) : ∃ v, e = versionMsg v := by
  unfold versionChecks at h
  cases h1 : pyIn "version" md with
  | error ex => rw [h1] at h; exact absurd h (by simp)
  | ok mem =>
    rw [h1] at h
    cases mem with
    | false =>
      injection h with h'
      subst h'
      exact absurd he (by simp)
    | true =>
      cases h2 : pyGetItem md "version" with
      | error ex => rw [h2] at h; exact absurd h (by simp)
      | ok v =>
        rw [h2] at h
        cases v with
        | str s =>
          injection h with h'
          subst h'
          refine ⟨s, ?_⟩
          cases hk : semverMatch s <;> rw [hk] at he
          · exact List.mem_singleton.mp he
          · exact absurd he (by simp)
        | null => exact absurd h (by simp)
        | bool b => exact absurd h (by simp)
        | int n => exact absurd h (by simp)
        | list xs => exact absurd h (by simp)
        | map kvs => exact absurd h (by simp)

/-- The only error `tagsChecks` can return. -/
lemma mem_tagsChecks {md : Yaml} {l w : List String} {e : String}
    (h : tagsChecks md = .ok (l, w)) (he : e ∈ l) : e = "Tags must be a list" := by
  unfold tagsChecks at h
  cases h1 : pyIn "tags" md with
  | error ex => rw [h1] at h; exact absurd h (by simp)
  | ok mem =>
    rw [h1] at h
    cases mem with
    | false =>
      injection h with h'
      injection h' with h1 h2
      subst h1
      exact absurd he (by simp)
    | true =>
      cases h2 : pyGetItem md "tags" with
      | error ex => rw [h2] at h; exact absurd h (by simp)
      | ok v =>
        rw [h2] at h
        cases v with
        | list xs =>
          injection h with h'
          injection h' with ha hb
          subst ha
          exact absurd he (by simp)
        | null =>
          injection h with h'
          injection h' with ha hb
          subst ha
          exact List.mem_singleton.mp he
        | bool b =>
          injection h with h'
          injection h' with ha hb
          subst ha
          exact List.mem_singleton.mp he
        | int n =>
          injection h with h'
          injection h' with ha hb
          subst ha
          exact List.mem_singleton.mp he
        | str s =>
          injection h with h'
          injection h' with ha hb
          subst ha
          exact List.mem_singleton.mp he
        | map kvs =>
          injection h with h'
          injection h' with ha hb
          subst ha
          exact List.mem_singleton.mp he

/-- Membership in the section errors. -/
lemma mem_sectionErrors {body : String} {e : String} :
    e ∈ sectionErrors body ↔
      ∃ s, s ∈ REQUIRED_SECTIONS ∧ strIn s body = false ∧ e = secMsg s := by
  unfold sectionErrors
  constructor
  · intro h
    rcases List.mem_map.mp h with ⟨s, hs, rfl⟩
    rcases List.mem_filter.mp hs with ⟨hmem, hcond⟩
    exact ⟨s, hmem, by simpa using hcond, rfl⟩
  · rintro ⟨s, hmem, hcond, rfl⟩
    exact List.mem_map.mpr ⟨s, List.mem_filter.mpr ⟨hmem, by simpa using hcond⟩, rfl⟩

end ValidateSkill

namespace ValidateSkill

/-- Inverting a normal return of `validateParsed`: the error phases all
returned normally, and the error list is their concatenation followed by the
section errors. -/
lemma validateParsed_ok_inv {fn pn : String} {md : Yaml} {body : String}
    {errs warns : List String}
    (h : validateParsed fn pn md body = .ok (errs, warns)) :
    ∃ e1 e2 e3 e4 w3, requiredFieldErrors md = .ok e1 ∧ nameChecks fn md = .ok e2 ∧
      versionChecks md = .ok e3 ∧ tagsChecks md = .ok (e4, w3) ∧
      errs = e1 ++ e2 ++ e3 ++ e4 ++ sectionErrors body := by
  unfold validateParsed at h
  cases h1 : requiredFieldErrors md with
  | error ex => rw [h1] at h; exact absurd h (by simp)
  | ok e1 =>
  rw [h1] at h
  cases h2 : nameChecks fn md with
  | error ex => rw [h2] at h; exact absurd h (by simp)
  | ok e2 =>
  rw [h2] at h
  cases h3 : versionChecks md with
  | error ex => rw [h3] at h; exact absurd h (by simp)
  | ok e3 =>
  rw [h3] at h
  cases h4 : descriptionWarnings md with
  | error ex => rw [h4] at h; exact absurd h (by simp)
  | ok w1 =>
  rw [h4] at h
  cases h5 : categoryWarnings pn md with
  | error ex => rw [h5] at h; exact absurd h (by simp)
  | ok w2 =>
  rw [h5] at h
  cases h6 : tagsChecks md with
  | error ex => rw [h6] at h; exact absurd h (by simp)
  | ok p =>
  obtain ⟨e4, w3⟩ := p
  rw [h6] at h
  cases h7 : difficultyWarnings md with
  | error ex => rw [h7] at h; exact absurd h (by simp)
  | ok w4 =>
  rw [h7] at h
  cases h8 : dateWarnings md with
  | error ex => rw [h8] at h; exact absurd h (by simp)
  | ok w5 =>
  rw [h8] at h
  injection h with h'
  injection h' with ha hb
  exact ⟨e1, e2, e3, e4, w3, rfl, rfl, rfl, rfl, ha.symm⟩

/-- When the parse phase succeeds, `validate_skill` is `validateParsed` on
what it produced. -/
lemma validate_skill_eq_parsed {sl : String → Except String Yaml} {f : SkillFile}
    {content : String} {md : Yaml} {body : String}
    (hex : f.fileExists = true) (hread : f.readResult = .ok content)
    (hp : parseChain sl content = some (md, body)) :
    validate_skill sl f = validateParsed f.fileName f.parentName md body := by
  unfold parseChain at hp
  unfold validate_skill
  rw [hex, hread]
  simp only [Bool.not_true, Bool.false_eq_true, if_false]
  cases hsw : pyStartsWith content "---" with
  | false => rw [hsw] at hp; simp at hp
  | true =>
  rw [hsw] at hp
  simp only [Bool.not_true, Bool.false_eq_true, if_false] at hp ⊢
  by_cases h3 : (pySplit content "---" 2).length < 3
  · rw [if_pos h3] at hp; simp at hp
  · rw [if_neg h3] at hp
    rw [if_neg h3]
    cases hsl : sl ((pySplit content "---" 2).getD 1 "") with
    | error ex => rw [hsl] at hp; simp at hp
    | ok data =>
    rw [hsl] at hp
    simp only at hp ⊢
    cases hdt : data.truthy with
    | false => simp only [hdt] at hp; simp at hp
    | true =>
    simp only [hdt, Bool.not_true, Bool.false_eq_true, if_false] at hp ⊢
    cases hg : yamlDictGet data "metadata" (.map []) with
    | error ex => rw [hg] at hp; simp at hp
    | ok metadata =>
    rw [hg] at hp
    simp only at hp ⊢
    cases hmt : metadata.truthy with
    | false => simp only [hmt] at hp; simp at hp
    | true =>
    simp only [hmt, Bool.not_true, Bool.false_eq_true, if_false] at hp ⊢
    injection hp with hp'
    injection hp' with ha hb
    rw [ha, hb]

end ValidateSkill

/-- If a key has a binding in an association list, the Python `in` test on
its keys succeeds. -/
lemma any_key_of_lookup {k : String} {v : Yaml} :
    ∀ {kvs : List (String × Yaml)}, List.lookup k kvs = some v →
      (kvs.any fun p => p.1 == k) = true := by
  intro kvs h
  induction kvs with
  | nil => simp [List.lookup] at h
  | cons p t ih =>
    obtain ⟨a, b⟩ := p
    by_cases hk : k = a
    · subst hk
      simp
    · have h1 : (k == a) = false := by simp [hk]
      have h2 : (a == k) = false := by simp [Ne.symm hk]
      simp only [List.lookup, h1] at h
      simp only [List.any_cons, h2, Bool.false_or]
      exact ih h

/-- The lines of a document (used to state what "appears as a level-2
heading" means for a claim about sections). -/
def strLines (s : String) : List String := (s.data.splitOn '\n').map fun l => ⟨l⟩

/-- `sec` appears as a level-2 heading: some line of `body` starts with it
(e.g. `sec = "## Overview"`).  A level-3 heading `### Overview` or an
occurrence inside a code block is not a line starting with `## Overview`. -/
def hasLevel2Heading (sec body : String) : Bool :=
  (strLines body).any fun ln => pyStartsWith ln sec

namespace ValidateSkill

/-- On a mapping whose `tags` key holds a scalar, the tags check reports
exactly the fatal type error. -/
lemma tagsChecks_scalar {kvs : List (String × Yaml)} {t : Yaml}
    (ht : List.lookup "tags" kvs = some t) (hscalar : t.isScalar = true) :
    tagsChecks (.map kvs) = .ok (["Tags must be a list"], []) := by
  unfold tagsChecks
  have hin : pyIn "tags" (Yaml.map kvs) = .ok true := by
    unfold pyIn
    simp [any_key_of_lookup ht]
  rw [hin]
  have hget : pyGetItem (Yaml.map kvs) "tags" = .ok t := by
    unfold pyGetItem
    simp [ht]
  simp only
  rw [hget]
  cases t with
  | null => rfl
  | bool b => rfl
  | int n => rfl
  | str s => rfl
  | list xs => simp [Yaml.isScalar] at hscalar
  | map m => simp [Yaml.isScalar] at hscalar

end ValidateSkill

/-! ### Claim C3 -/

/-- Claim C3, amended: for every existing, readable skill document whose text
does not START with the three characters `---`, the standalone validator
returns exactly one fatal error (the missing-frontmatter message) and no
other diagnostics.  (As originally stated — "whose first line is not exactly
`---`" — the claim is false: see the counterexample.) -/
theorem validator_short_circuits_without_frontmatter_prefix
    (sl : String → Except String Yaml) (f : ValidateSkill.SkillFile) (content : String)
    (hex : f.fileExists = true) (hread : f.readResult = .ok content)
    (h : pyStartsWith content "---" = false) :
    ValidateSkill.validate_skill sl f =
      .ok (["Missing YAML frontmatter (must start with '---')"], []) := by
  unfold ValidateSkill.validate_skill
  rw [hex, hread]
  simp [h]

/-- Witness for C3's theorem at the concrete document `docNoFm`. -/
theorem validator_short_circuit_witness :
    fileNoFm.fileExists = true ∧ fileNoFm.readResult = .ok docNoFm ∧
    pyStartsWith docNoFm "---" = false ∧
    ValidateSkill.validate_skill safeLoadTable fileNoFm =
      .ok (["Missing YAML frontmatter (must start with '---')"], []) :=
  ⟨rfl, rfl, by decide,
    validator_short_circuits_without_frontmatter_prefix safeLoadTable fileNoFm docNoFm
      rfl rfl (by decide)⟩

/-- Counterexample to C3 as stated: `docGluedFm` starts with `---` but its
first line is `---metadata:`, not `---`; the validator does not short-circuit
— it returns nine fatal errors and six warnings, not exactly one fatal error
and nothing else. -/
theorem validator_first_line_short_circuit_counterexample :
    firstLine docGluedFm ≠ "---" ∧
    (ValidateSkill.validate_skill safeLoadTable fileGluedFm).map
        (fun p => (p.1.length, p.2.length)) = .ok (9, 6) := by
  exact ⟨by decide, by decide⟩

/-! ### Claim C4 -/

/-- Claim C4, amended: whenever a standalone validation run completes
normally, the fatal error for a required section is reported if and only if
the literal heading text (e.g. `## Overview`) does not occur as a SUBSTRING
of the body — so text that is not a level-2 heading, such as a level-3
`### Overview` or an occurrence inside a code block, counts as present.
(As originally stated — substring occurrences that are not level-2 headings
"still count as missing" — the claim is false: see the counterexample.) -/
theorem required_sections_reported_iff_substring_absent
    (sl : String → Except String Yaml) (f : ValidateSkill.SkillFile)
    (content : String) (md : Yaml) (body : String) (errs warns : List String) (s : String)
    (hex : f.fileExists = true) (hread : f.readResult = .ok content)
    (hp : ValidateSkill.parseChain sl content = some (md, body))
    (hok : ValidateSkill.validate_skill sl f = .ok (errs, warns))
    (hs : s ∈ ValidateSkill.REQUIRED_SECTIONS) :
    ValidateSkill.secMsg s ∈ errs ↔ strIn s body = false := by
  rw [ValidateSkill.validate_skill_eq_parsed hex hread hp] at hok
  obtain ⟨e1, e2, e3, e4, w3, h1, h2, h3, h4, herrs⟩ := ValidateSkill.validateParsed_ok_inv hok
  subst herrs
  constructor
  · intro hmem
    rcases List.mem_append.mp hmem with hmem | hsec
    · rcases List.mem_append.mp hmem with hmem | h4m
      · rcases List.mem_append.mp hmem with hmem | h3m
        · rcases List.mem_append.mp hmem with h1m | h2m
          · obtain ⟨g, hcase⟩ := ValidateSkill.mem_requiredFieldErrorsAux h1 h1m
            rcases hcase with hcase | hcase
            · exact absurd hcase.symm (ValidateSkill.missingFieldMsg_ne_secMsg g s)
            · exact absurd hcase.symm (ValidateSkill.emptyFieldMsg_ne_secMsg g s)
          · rcases ValidateSkill.mem_nameChecks h2 h2m with ⟨n, hn⟩ | ⟨n, hn⟩
            · exact absurd hn.symm (ValidateSkill.kebabMsg_ne_secMsg n s)
            · exact absurd hn.symm (ValidateSkill.filenameMsg_ne_secMsg f.fileName n s)
        · obtain ⟨v, hv⟩ := ValidateSkill.mem_versionChecks h3 h3m
          exact absurd hv.symm (ValidateSkill.versionMsg_ne_secMsg v s)
      · have htag := ValidateSkill.mem_tagsChecks h4 h4m
        exact absurd htag.symm (ValidateSkill.tagsMsg_ne_secMsg s)
    · obtain ⟨s', _, hin, heq⟩ := ValidateSkill.mem_sectionErrors.mp hsec
      rwa [ValidateSkill.secMsg_inj heq]
  · intro hin
    exact List.mem_append.mpr (.inr (ValidateSkill.mem_sectionErrors.mpr ⟨s, hs, hin, rfl⟩))

/-- The metadata mapping PyYAML produces for `docH3Overview`. -/
def mdH3 : Yaml :=
  .map [("name", .str "demo-skill"), ("version", .str "1.0.0"), ("description", .str "d"),
        ("category", .str "testing"), ("tags", .list [.str "a", .str "b", .str "c"]),
        ("author", .str "al")]

/-- The body of `docH3Overview`. -/
def bodyH3 : String := "\n### Overview\nText"

/-- The errors the standalone validator reports on `docH3Overview`. -/
def errsH3 : List String :=
  ["Missing required section: '## Task Description'",
   "Missing required section: '## Steps'",
   "Missing required section: '## Expected Output'",
   "Missing required section: '## Success Criteria'"]

/-- The warnings the standalone validator reports on `docH3Overview`. -/
def warnsH3 : List String :=
  ["Description is too short (1 chars, recommended: 50-200)",
   "Missing recommended section: '## Prerequisites'",
   "Missing recommended section: '## Troubleshooting'",
   "Missing recommended section: '## Related Skills'",
   "Missing recommended section: '## References'",
   "No code blocks found - consider adding code examples",
   "Skill content seems short (17 chars) - consider adding more detail"]

/-- Witness for C4's theorem at the concrete document `docH3Overview` and
the section `## Task Description`. -/
theorem required_sections_witness :
    fileH3Overview.fileExists = true ∧
    fileH3Overview.readResult = .ok docH3Overview ∧
    ValidateSkill.parseChain safeLoadTable docH3Overview = some (mdH3, bodyH3) ∧
    ValidateSkill.validate_skill safeLoadTable fileH3Overview = .ok (errsH3, warnsH3) ∧
    "## Task Description" ∈ ValidateSkill.REQUIRED_SECTIONS ∧
    (ValidateSkill.secMsg "## Task Description" ∈ errsH3 ↔
      strIn "## Task Description" bodyH3 = false) :=
  ⟨rfl, rfl, rfl, by decide, by decide,
    required_sections_reported_iff_substring_absent safeLoadTable fileH3Overview
      docH3Overview mdH3 bodyH3 errsH3 warnsH3 "## Task Description"
      rfl rfl rfl (by decide) (by decide)⟩

/-- Counterexample to C4 as stated: in `docH3Overview` the body holds
`### Overview` — `Overview` appears only as a level-3 heading, not as a
level-2 heading — yet the validator reports NO missing-`## Overview` error,
because its substring test finds `## Overview` inside `### Overview`. -/
theorem required_sections_level2_counterexample :
    hasLevel2Heading "## Overview" bodyH3 = false ∧
    ValidateSkill.validate_skill safeLoadTable fileH3Overview = .ok (errsH3, warnsH3) ∧
    ValidateSkill.secMsg "## Overview" ∉ errsH3 := by
  refine ⟨by decide, by decide, by decide⟩

/-! ### Claim C5 -/

/-- Claim C5 (confirmed): whenever the standalone validator completes
normally on a document whose well-formed frontmatter metadata gives `tags` a
scalar value (not a sequence), the returned errors contain the fatal message
`Tags must be a list`, so the verdict is invalid. -/
theorem scalar_tags_yield_fatal_error
    (sl : String → Except String Yaml) (f : ValidateSkill.SkillFile)
    (content : String) (kvs : List (String × Yaml)) (t : Yaml) (body : String)
    (errs warns : List String)
    (hex : f.fileExists = true) (hread : f.readResult = .ok content)
    (hp : ValidateSkill.parseChain sl content = some (.map kvs, body))
    (ht : List.lookup "tags" kvs = some t)
    (hscalar : t.isScalar = true)
    (hok : ValidateSkill.validate_skill sl f = .ok (errs, warns)) :
    "Tags must be a list" ∈ errs := by
  rw [ValidateSkill.validate_skill_eq_parsed hex hread hp] at hok
  obtain ⟨e1, e2, e3, e4, w3, h1, h2, h3, h4, herrs⟩ := ValidateSkill.validateParsed_ok_inv hok
  rw [ValidateSkill.tagsChecks_scalar ht hscalar] at h4
  injection h4 with h4'
  injection h4' with ha hb
  subst herrs
  rw [← ha]
  simp

/-- The metadata bindings PyYAML produces for `docTagsScalar`. -/
def kvsTagsScalar : List (String × Yaml) :=
  [("name", .str "demo-skill"), ("version", .str "1.0.0"), ("description", .str "d"),
   ("category", .str "testing"), ("tags", .str "abc"), ("author", .str "al")]

/-- The errors the standalone validator reports on `docTagsScalar`. -/
def errsTagsScalar : List String :=
  ["Tags must be a list",
   "Missing required section: '## Task Description'",
   "Missing required section: '## Steps'",
   "Missing required section: '## Expected Output'",
   "Missing required section: '## Success Criteria'"]

/-- The warnings the standalone validator reports on `docTagsScalar`. -/
def warnsTagsScalar : List String :=
  ["Description is too short (1 chars, recommended: 50-200)",
   "Missing recommended section: '## Prerequisites'",
   "Missing recommended section: '## Troubleshooting'",
   "Missing recommended section: '## Related Skills'",
   "Missing recommended section: '## References'",
   "No code blocks found - consider adding code examples",
   "Skill content seems short (16 chars) - consider adding more detail"]

/-- Witness for C5's theorem at the concrete document `docTagsScalar`. -/
theorem scalar_tags_witness :
    fileTagsScalar.fileExists = true ∧
    fileTagsScalar.readResult = .ok docTagsScalar ∧
    ValidateSkill.parseChain safeLoadTable docTagsScalar =
      some (.map kvsTagsScalar, "\n## Overview\nText") ∧
    List.lookup "tags" kvsTagsScalar = some (.str "abc") ∧
    (Yaml.str "abc").isScalar = true ∧
    ValidateSkill.validate_skill safeLoadTable fileTagsScalar =
      .ok (errsTagsScalar, warnsTagsScalar) ∧
    "Tags must be a list" ∈ errsTagsScalar :=
  ⟨rfl, rfl, rfl, rfl, rfl, by decide,
    scalar_tags_yield_fatal_error safeLoadTable fileTagsScalar docTagsScalar
      kvsTagsScalar (.str "abc") "\n## Overview\nText" errsTagsScalar warnsTagsScalar
      rfl rfl rfl rfl rfl (by decide)⟩

/-! ### Claims C1 and C2 (uncaught exceptions in the scripts) -/

namespace GenerateIndex

/-- Increment the error count of a normal loop state; exceptions pass
through. -/
def bumpErr : Except PyExc (List (List (String × Yaml)) × Nat × Nat) →
    Except PyExc (List (List (String × Yaml)) × Nat × Nat)
  | .error e => .error e
  | .ok (sk, c, e) => .ok (sk, c, e + 1)

/-- The loop body only ever adds to the error count it was given. -/
lemma processOne_errshift (sl : String → Except String Yaml) (baseUrl : String)
    (f : IndexFile) (sk : List (List (String × Yaml))) (c e : Nat) :
    processOne sl baseUrl f sk c (e + 1) = bumpErr (processOne sl baseUrl f sk c e) := by
  unfold processOne bumpErr
  cases hem : extract_metadata sl f with
  | none => simp
  | some md =>
    simp only
    cases hmt : md.truthy with
    | false => simp
    | true =>
      simp only [Bool.not_true, Bool.false_eq_true, if_false]
      cases hb : buildEntry md f.parentName f.pathStr baseUrl with
      | error ex => simp
      | ok entry =>
        simp only
        cases hn : ((List.lookup "name" entry).getD .null).truthy with
        | false => simp [hn]
        | true =>
          cases hd : ((List.lookup "description" entry).getD .null).truthy with
          | false => simp [hn, hd]
          | true => simp [hn, hd]

/-- The error count threads additively through the loop. -/
lemma processSkillsAux_errshift (sl : String → Except String Yaml) (baseUrl : String) :
    ∀ (l : List IndexFile) (sk : List (List (String × Yaml))) (c e : Nat),
      processSkillsAux sl baseUrl (sk, c, e + 1) l =
        bumpErr (processSkillsAux sl baseUrl (sk, c, e) l) := by
  intro l
  induction l with
  | nil => intro sk c e; rfl
  | cons g rest ih =>
    intro sk c e
    simp only [processSkillsAux]
    rw [processOne_errshift]
    cases hg : processOne sl baseUrl g sk c e with
    | error ex => rfl
    | ok acc =>
      obtain ⟨sk', c', e'⟩ := acc
      exact ih sk' c' e'

/-- Per-file isolation for files `extract_metadata` rejects: inserting such a
file anywhere in the scan adds one to the error count and changes nothing
else — every other file is processed exactly as if the bad one were absent.
(A file whose `metadata` key holds a truthy non-mapping value slips past
`extract_metadata` and instead aborts the whole run: see
`index_builder_aborts_on_nonmapping_metadata`.) -/
theorem extract_failure_isolated (sl : String → Except String Yaml) (baseUrl : String)
    {f : IndexFile} (hf : extract_metadata sl f = none) :
    ∀ (l₁ l₂ : List IndexFile) (sk : List (List (String × Yaml))) (c e : Nat),
      processSkillsAux sl baseUrl (sk, c, e) (l₁ ++ f :: l₂) =
        bumpErr (processSkillsAux sl baseUrl (sk, c, e) (l₁ ++ l₂)) := by
  intro l₁
  induction l₁ with
  | nil =>
    intro l₂ sk c e
    simp only [List.nil_append, processSkillsAux]
    have hone : processOne sl baseUrl f sk c e = .ok (sk, c, e + 1) := by
      unfold processOne
      rw [hf]
    rw [hone]
    exact processSkillsAux_errshift sl baseUrl l₂ sk c e
  | cons g l₁ ih =>
    intro l₂ sk c e
    simp only [List.cons_append, processSkillsAux]
    cases hg : processOne sl baseUrl g sk c e with
    | error ex => rfl
    | ok acc =>
      obtain ⟨sk', c', e'⟩ := acc
      exact ih l₂ sk' c' e'

end GenerateIndex

/-- Claim C1 (code bug): one bad file DOES abort the whole index run.  In a
tree holding the valid `fileGood` and the file `fileBadMeta` whose
frontmatter is `metadata: 5`, `extract_metadata` hands the truthy
non-mapping `5` back to `generate_index`, whose `metadata.get('name', '')`
then raises an uncaught `AttributeError`: the loop returns no index at all
instead of skipping the bad file, counting it, and indexing `fileGood`. -/
theorem index_builder_aborts_on_nonmapping_metadata :
    GenerateIndex.extract_metadata safeLoadTable fileBadMeta = some (.int 5) ∧
    GenerateIndex.processSkills safeLoadTable GenerateIndex.DEFAULT_BASE_URL
        [fileGood, fileBadMeta] =
      .error (.attributeError "'int' object has no attribute 'get'") :=
  ⟨rfl, rfl⟩

/-- Claim C2 (code bug): the standalone validator is not total.  On
`docIntVersion`, whose metadata holds `version: 1` (an int), line 122's
`re.match(r'^\d+\.\d+\.\d+$', version)` raises an uncaught `TypeError`
instead of the run returning its `(errors, warnings)` lists. -/
theorem validate_skill_crashes_on_int_version :
    ValidateSkill.validate_skill safeLoadTable fileIntVersion =
      .error (.typeError "expected string or bytes-like object, got 'int'") := by
  decide

/-! ### Claim C8: the catalog entry reproduces the metadata -/

namespace GenerateIndex

/-- The entry `buildEntry` produces from a mapping (see `buildEntry_map`). -/
def entryOf (kvs : List (String × Yaml)) (category pathStr baseUrl : String) :
    List (String × Yaml) :=
  [("name", (List.lookup "name" kvs).getD (.str "")),
   ("version", (List.lookup "version" kvs).getD (.str "1.0.0")),
   ("description", (List.lookup "description" kvs).getD (.str "")),
   ("category", (List.lookup "category" kvs).getD (.str category)),
   ("tags", (List.lookup "tags" kvs).getD (.list [])),
   ("author", (List.lookup "author" kvs).getD (.str "unknown")),
   ("created", (List.lookup "created" kvs).getD (.str "")),
   ("updated", (List.lookup "updated" kvs).getD (.str "")),
   ("difficulty", (List.lookup "difficulty" kvs).getD (.str "")),
   ("estimated_time", (List.lookup "estimated_time" kvs).getD (.str "")),
   ("path", .str pathStr),
   ("url", .str (baseUrl ++ "/" ++ pathStr))]

/-- On a mapping, `buildEntry` never raises and produces `entryOf`. -/
lemma buildEntry_map (kvs : List (String × Yaml)) (cat pth url : String) :
    buildEntry (.map kvs) cat pth url = .ok (entryOf kvs cat pth url) := rfl

end GenerateIndex

/-- Claim C8 (confirmed): the catalog entry appended for a skill file with a
mapping metadata holding truthy `name` and `description` reproduces, for each
of the ten metadata fields of the data model, the value present in the
metadata verbatim; `category` falls back to the containing directory name
exactly when the metadata omits it; `path` and `url` are the computed
location fields; and the entry is what the scan appends for that file. -/
theorem catalog_entry_roundtrip
    (sl : String → Except String Yaml) (baseUrl : String) (f : GenerateIndex.IndexFile)
    (kvs : List (String × Yaml)) (name desc : Yaml)
    (hmd : GenerateIndex.extract_metadata sl f = some (.map kvs))
    (hname : List.lookup "name" kvs = some name) (hnt : name.truthy = true)
    (hdesc : List.lookup "description" kvs = some desc) (hdt : desc.truthy = true) :
    (∀ fld v, fld ∈ GenerateIndex.INDEX_FIELDS → List.lookup fld kvs = some v →
        List.lookup fld (GenerateIndex.entryOf kvs f.parentName f.pathStr baseUrl) = some v) ∧
    (List.lookup "category" kvs = none →
        List.lookup "category" (GenerateIndex.entryOf kvs f.parentName f.pathStr baseUrl) =
          some (.str f.parentName)) ∧
    List.lookup "path" (GenerateIndex.entryOf kvs f.parentName f.pathStr baseUrl) =
      some (.str f.pathStr) ∧
    List.lookup "url" (GenerateIndex.entryOf kvs f.parentName f.pathStr baseUrl) =
      some (.str (baseUrl ++ "/" ++ f.pathStr)) ∧
    GenerateIndex.processSkills sl baseUrl [f] =
      .ok ([GenerateIndex.entryOf kvs f.parentName f.pathStr baseUrl], 1, 0) := by
  refine ⟨?_, ?_, rfl, rfl, ?_⟩
  · intro fld v hfld hv
    simp only [GenerateIndex.INDEX_FIELDS, List.mem_cons, List.not_mem_nil, or_false] at hfld
    rcases hfld with rfl | rfl | rfl | rfl | rfl | rfl | rfl | rfl | rfl | rfl
    · show some ((List.lookup "name" kvs).getD (.str "")) = some v
      rw [hv]; rfl
    · show some ((List.lookup "version" kvs).getD (.str "1.0.0")) = some v
      rw [hv]; rfl
    · show some ((List.lookup "description" kvs).getD (.str "")) = some v
      rw [hv]; rfl
    · show some ((List.lookup "category" kvs).getD (.str f.parentName)) = some v
      rw [hv]; rfl
    · show some ((List.lookup "tags" kvs).getD (.list [])) = some v
      rw [hv]; rfl
    · show some ((List.lookup "author" kvs).getD (.str "unknown")) = some v
      rw [hv]; rfl
    · show some ((List.lookup "created" kvs).getD (.str "")) = some v
      rw [hv]; rfl
    · show some ((List.lookup "updated" kvs).getD (.str "")) = some v
      rw [hv]; rfl
    · show some ((List.lookup "difficulty" kvs).getD (.str "")) = some v
      rw [hv]; rfl
    · show some ((List.lookup "estimated_time" kvs).getD (.str "")) = some v
      rw [hv]; rfl
  · intro h
    show some ((List.lookup "category" kvs).getD (.str f.parentName)) = some (.str f.parentName)
    rw [h]; rfl
  · have hkne : kvs ≠ [] := by
      intro h0
      rw [h0] at hname
      simp [List.lookup] at hname
    have htr : (Yaml.map kvs).truthy = true := by
      cases kvs with
      | nil => exact absurd rfl hkne
      | cons p rest => rfl
    have hn1 : ((List.lookup "name"
        (GenerateIndex.entryOf kvs f.parentName f.pathStr baseUrl)).getD .null) = name := by
      show (List.lookup "name" kvs).getD (.str "") = name
      rw [hname]
      rfl
    have hd1 : ((List.lookup "description"
        (GenerateIndex.entryOf kvs f.parentName f.pathStr baseUrl)).getD .null) = desc := by
      show (List.lookup "description" kvs).getD (.str "") = desc
      rw [hdesc]
      rfl
    have hone : GenerateIndex.processOne sl baseUrl f [] 0 0 =
        .ok ([GenerateIndex.entryOf kvs f.parentName f.pathStr baseUrl], 1, 0) := by
      unfold GenerateIndex.processOne
      rw [hmd]
      simp only [htr, Bool.not_true, Bool.false_eq_true, if_false,
        GenerateIndex.buildEntry_map, hn1, hd1, hnt, hdt, List.nil_append]
    show GenerateIndex.processSkillsAux sl baseUrl ([], 0, 0) [f] = _
    unfold GenerateIndex.processSkillsAux
    rw [hone]
    rfl

/-- The metadata bindings PyYAML produces for `docAlpha`. -/
def kvsAlpha : List (String × Yaml) :=
  [("name", .str "alpha-skill"), ("description", .str "First one")]

/-- Witness for C8's theorem at the concrete skill file `fileAlpha`. -/
theorem catalog_entry_roundtrip_witness :
    GenerateIndex.extract_metadata safeLoadTable fileAlpha = some (.map kvsAlpha) ∧
    List.lookup "name" kvsAlpha = some (.str "alpha-skill") ∧
    (Yaml.str "alpha-skill").truthy = true ∧
    List.lookup "description" kvsAlpha = some (.str "First one") ∧
    (Yaml.str "First one").truthy = true ∧
    ((∀ fld v, fld ∈ GenerateIndex.INDEX_FIELDS → List.lookup fld kvsAlpha = some v →
        List.lookup fld (GenerateIndex.entryOf kvsAlpha fileAlpha.parentName
          fileAlpha.pathStr GenerateIndex.DEFAULT_BASE_URL) = some v) ∧
     (List.lookup "category" kvsAlpha = none →
        List.lookup "category" (GenerateIndex.entryOf kvsAlpha fileAlpha.parentName
          fileAlpha.pathStr GenerateIndex.DEFAULT_BASE_URL) = some (.str fileAlpha.parentName)) ∧
     List.lookup "path" (GenerateIndex.entryOf kvsAlpha fileAlpha.parentName
        fileAlpha.pathStr GenerateIndex.DEFAULT_BASE_URL) = some (.str fileAlpha.pathStr) ∧
     List.lookup "url" (GenerateIndex.entryOf kvsAlpha fileAlpha.parentName
        fileAlpha.pathStr GenerateIndex.DEFAULT_BASE_URL) =
       some (.str (GenerateIndex.DEFAULT_BASE_URL ++ "/" ++ fileAlpha.pathStr)) ∧
     GenerateIndex.processSkills safeLoadTable GenerateIndex.DEFAULT_BASE_URL [fileAlpha] =
       .ok ([GenerateIndex.entryOf kvsAlpha fileAlpha.parentName
         fileAlpha.pathStr GenerateIndex.DEFAULT_BASE_URL], 1, 0)) :=
  ⟨rfl, rfl, rfl, rfl, rfl,
    catalog_entry_roundtrip safeLoadTable GenerateIndex.DEFAULT_BASE_URL fileAlpha
      kvsAlpha (.str "alpha-skill") (.str "First one") rfl rfl rfl rfl rfl⟩

/-! ### Claim C9: determinism of the index up to the timestamp -/

namespace GenerateIndex

/-- `lexLe` is reflexive. -/
lemma lexLe_refl : ∀ l : List String, lexLe l l = true := by
  intro l
  induction l with
  | nil => rfl
  | cons a t ih =>
    unfold lexLe
    rw [if_neg (lt_irrefl a), if_pos rfl]
    exact ih

/-- `lexLe` is total. -/
lemma lexLe_total : ∀ a b : List String, lexLe a b = true ∨ lexLe b a = true := by
  intro a
  induction a with
  | nil => intro b; exact .inl rfl
  | cons x as ih =>
    intro b
    cases b with
    | nil => exact .inr rfl
    | cons y bs =>
      unfold lexLe
      rcases lt_trichotomy x y with h | h | h
      · left
        rw [if_pos h]
      · subst h
        rw [if_neg (lt_irrefl x), if_pos rfl, if_neg (lt_irrefl x), if_pos rfl]
        exact ih bs
      · right
        rw [if_pos h]

/-- `lexLe` is transitive. -/
lemma lexLe_trans : ∀ {a b c : List String},
    lexLe a b = true → lexLe b c = true → lexLe a c = true := by
  intro a
  induction a with
  | nil => intro b c _ _; rfl
  | cons x as ih =>
    intro b c h1 h2
    cases b with
    | nil => simp [lexLe] at h1
    | cons y bs =>
      cases c with
      | nil => simp [lexLe] at h2
      | cons z cs =>
        unfold lexLe at h1 h2 ⊢
        by_cases hxy : x < y
        · rw [if_pos hxy] at h1
          by_cases hyz : y < z
          · rw [if_pos (lt_trans hxy hyz)]
          · rw [if_neg hyz] at h2
            by_cases heq : y = z
            · subst heq
              rw [if_pos hxy]
            · rw [if_neg heq] at h2
              exact absurd h2 (by simp)
        · rw [if_neg hxy] at h1
          by_cases heq : x = y
          · subst heq
            rw [if_pos rfl] at h1
            by_cases hxz : x < z
            · rw [if_pos hxz]
            · rw [if_neg hxz] at h2 ⊢
              by_cases heq2 : x = z
              · rw [if_pos heq2] at h2 ⊢
                exact ih h1 h2
              · rw [if_neg heq2] at h2
                exact absurd h2 (by simp)
          · rw [if_neg heq] at h1
            exact absurd h1 (by simp)

/-- `lexLe` is antisymmetric. -/
lemma lexLe_antisymm : ∀ {a b : List String},
    lexLe a b = true → lexLe b a = true → a = b := by
  intro a
  induction a with
  | nil =>
    intro b _ h2
    cases b with
    | nil => rfl
    | cons y bs => simp [lexLe] at h2
  | cons x as ih =>
    intro b h1 h2
    cases b with
    | nil => simp [lexLe] at h1
    | cons y bs =>
      unfold lexLe at h1 h2
      by_cases hxy : x < y
      · have hne : y ≠ x := by
          intro h
          subst h
          exact lt_irrefl y hxy
        rw [if_neg (asymm hxy), if_neg hne] at h2
        exact absurd h2 (by simp)
      · rw [if_neg hxy] at h1
        by_cases heq : x = y
        · subst heq
          rw [if_pos rfl] at h1
          rw [if_neg hxy, if_pos rfl] at h2
          rw [ih h1 h2]
        · rw [if_neg heq] at h1
          exact absurd h1 (by simp)

/-- The ordering relation on files used everywhere below. -/
def fileLeP (a b : IndexFile) : Prop := lexLe a.parts b.parts = true

/-- Inserting keeps the list a permutation. -/
lemma insertFile_perm (f : IndexFile) : ∀ l : List IndexFile, (insertFile f l).Perm (f :: l) := by
  intro l
  induction l with
  | nil => exact .refl _
  | cons g t ih =>
    unfold insertFile
    by_cases h : lexLe f.parts g.parts
    · rw [if_pos h]
    · rw [if_neg h]
      exact (ih.cons g).trans (List.Perm.swap f g t)

/-- `sortFiles` permutes its input. -/
lemma sortFiles_perm : ∀ l : List IndexFile, (sortFiles l).Perm l := by
  intro l
  induction l with
  | nil => exact .refl _
  | cons f t ih =>
    unfold sortFiles
    exact (insertFile_perm f (sortFiles t)).trans (ih.cons f)

/-- Inserting into a sorted list keeps it sorted. -/
lemma insertFile_sorted (f : IndexFile) :
    ∀ {l : List IndexFile}, l.Pairwise fileLeP → (insertFile f l).Pairwise fileLeP := by
  intro l
  induction l with
  | nil =>
    intro _
    exact List.pairwise_singleton _ _
  | cons g t ih =>
    intro hs
    obtain ⟨hg, ht⟩ := List.pairwise_cons.mp hs
    unfold insertFile
    by_cases h : lexLe f.parts g.parts
    · rw [if_pos h]
      refine List.pairwise_cons.mpr ⟨?_, hs⟩
      intro b hb
      rcases List.mem_cons.mp hb with rfl | hmem
      · exact h
      · exact lexLe_trans h (hg b hmem)
    · rw [if_neg h]
      refine List.pairwise_cons.mpr ⟨?_, ih ht⟩
      intro b hb
      have hb2 := (insertFile_perm f t).mem_iff.mp hb
      rcases List.mem_cons.mp hb2 with h1 | hmem
      · rw [h1]
        rcases lexLe_total f.parts g.parts with hh | hh
        · exact absurd hh h
        · exact hh
      · exact hg b hmem

/-- `sortFiles` sorts. -/
lemma sortFiles_sorted : ∀ l : List IndexFile, (sortFiles l).Pairwise fileLeP := by
  intro l
  induction l with
  | nil => exact List.Pairwise.nil
  | cons f t ih => exact insertFile_sorted f ih

/-- Two sorted permutations of a list of pathwise-distinct files are equal. -/
lemma sorted_nodup_unique : ∀ {l₁ l₂ : List IndexFile}, l₁.Perm l₂ →
    l₁.Pairwise fileLeP → l₂.Pairwise fileLeP →
    (l₁.map IndexFile.parts).Nodup → l₁ = l₂ := by
  intro l₁
  induction l₁ with
  | nil =>
    intro l₂ hp _ _ _
    exact (hp.symm.eq_nil).symm ▸ rfl
  | cons a t₁ ih =>
    intro l₂ hp hs₁ hs₂ hnd
    cases l₂ with
    | nil => exact absurd hp.eq_nil (by simp)
    | cons b t₂ =>
      have hab : a ∈ b :: t₂ := hp.mem_iff.mp (List.mem_cons_self a t₁)
      have hba : b ∈ a :: t₁ := hp.mem_iff.mpr (List.mem_cons_self b t₂)
      have hle1 : fileLeP a b := by
        rcases List.mem_cons.mp hba with h | hmem
        · rw [h]
          exact lexLe_refl _
        · exact (List.pairwise_cons.mp hs₁).1 b hmem
      have hle2 : fileLeP b a := by
        rcases List.mem_cons.mp hab with h | hmem
        · rw [h]
          exact lexLe_refl _
        · exact (List.pairwise_cons.mp hs₂).1 a hmem
      have hparts : a.parts = b.parts := lexLe_antisymm hle1 hle2
      have hfab : a = b :=
        List.inj_on_of_nodup_map hnd (List.mem_cons_self a t₁) hba hparts
      subst hfab
      have ht := ih hp.cons_inv (List.Pairwise.of_cons hs₁) (List.Pairwise.of_cons hs₂)
        ((List.nodup_cons.mp hnd).2)
      rw [ht]

/-- Sorting is invariant under permutation of a pathwise-distinct input:
the enumeration order of the filesystem does not matter. -/
lemma sortFiles_eq_of_perm {l₁ l₂ : List IndexFile} (hp : l₁.Perm l₂)
    (hnd : (l₁.map IndexFile.parts).Nodup) : sortFiles l₁ = sortFiles l₂ := by
  have hperm : (sortFiles l₁).Perm (sortFiles l₂) :=
    ((sortFiles_perm l₁).trans hp).trans (sortFiles_perm l₂).symm
  have hnd' : ((sortFiles l₁).map IndexFile.parts).Nodup := by
    have hmp : ((sortFiles l₁).map IndexFile.parts).Perm (l₁.map IndexFile.parts) :=
      (sortFiles_perm l₁).map IndexFile.parts
    exact hmp.nodup_iff.mpr hnd
  exact sorted_nodup_unique hperm (sortFiles_sorted l₁) (sortFiles_sorted l₂) hnd'

end GenerateIndex

/-- An index result with the `generated` timestamp removed. -/
def stripGenerated : Except PyExc (Option GenerateIndex.IndexDoc × Bool) →
    Except PyExc (Option (String × List (List (String × Yaml))) × Bool)
  | .error e => .error e
  | .ok (none, b) => .ok (none, b)
  | .ok (some d, b) => .ok (some (d.version, d.skills), b)

/-- Claim C9 (confirmed): two runs of the index builder over the same fixed
tree of pathwise-distinct skill files — even when the filesystem enumerates
the files in different orders — produce identical results (same entries,
same values, same sorted-path order, same success flag) apart from the
`generated` timestamp. -/
theorem index_determinism_up_to_timestamp
    (sl : String → Except String Yaml) (baseUrl : String) (dirExists : Bool)
    (files₁ files₂ : List GenerateIndex.IndexFile) (t₁ t₂ : String)
    (hperm : files₁.Perm files₂)
    (hnd : (files₁.map GenerateIndex.IndexFile.parts).Nodup) :
    stripGenerated (GenerateIndex.generate_index sl baseUrl dirExists files₁ t₁) =
      stripGenerated (GenerateIndex.generate_index sl baseUrl dirExists files₂ t₂) := by
  unfold GenerateIndex.generate_index
  cases dirExists with
  | false => rfl
  | true =>
    simp only [Bool.not_true, Bool.false_eq_true, if_false]
    rw [GenerateIndex.sortFiles_eq_of_perm hperm hnd]
    cases hps : GenerateIndex.processSkills sl baseUrl (GenerateIndex.sortFiles files₂) with
    | error e => rfl
    | ok acc =>
      obtain ⟨sk, c, e⟩ := acc
      rfl

/-- Witness for C9's theorem: the two-file tree `fileAlpha`, `fileBeta`
enumerated in both orders, with two different timestamps. -/
theorem index_determinism_witness :
    ([fileAlpha, fileBeta].Perm [fileBeta, fileAlpha]) ∧
    (([fileAlpha, fileBeta].map GenerateIndex.IndexFile.parts).Nodup) ∧
    stripGenerated (GenerateIndex.generate_index safeLoadTable
        GenerateIndex.DEFAULT_BASE_URL true [fileAlpha, fileBeta] "2024-01-01T00:00:00") =
      stripGenerated (GenerateIndex.generate_index safeLoadTable
        GenerateIndex.DEFAULT_BASE_URL true [fileBeta, fileAlpha] "2024-06-30T12:00:00") :=
  ⟨by decide, by decide,
    index_determinism_up_to_timestamp safeLoadTable GenerateIndex.DEFAULT_BASE_URL true
      [fileAlpha, fileBeta] [fileBeta, fileAlpha] "2024-01-01T00:00:00" "2024-06-30T12:00:00"
      (by decide) (by decide)⟩

/-! ### Claim C10: the space-error branch of the submission validator -/

namespace ProcessSubmission

/-- Both branches of one submission required-field check emit the same
message. -/
lemma mem_subFieldCheck {md : Yaml} {f : String} {l : List String} {e : String}
    (h : subFieldCheck md f = .ok l) (he : e ∈ l) :
    e = "Missing required metadata field: " ++ f := by
  unfold subFieldCheck at h
  cases h1 : pyIn f md with
  | error ex => rw [h1] at h; exact absurd h (by simp)
  | ok mem =>
    rw [h1] at h
    cases mem with
    | false =>
      simp only [Bool.not_false, if_pos] at h
      injection h with h'
      subst h'
      exact List.mem_singleton.mp he
    | true =>
      simp only [Bool.not_true, Bool.false_eq_true, if_false] at h
      cases h2 : pyGetItem md f with
      | error ex => rw [h2] at h; exact absurd h (by simp)
      | ok v =>
        rw [h2] at h
        injection h with h'
        subst h'
        cases hv : v.truthy <;> rw [hv] at he
        · exact List.mem_singleton.mp he
        · exact absurd he (by simp)

/-- Shape of the submission required-fields errors. -/
lemma mem_requiredErrorsAux {md : Yaml} {e : String} :
    ∀ {fs : List String} {l : List String},
      requiredErrorsAux md fs = .ok l → e ∈ l →
      ∃ f, e = "Missing required metadata field: " ++ f := by
  intro fs
  induction fs with
  | nil =>
    intro l h he
    unfold requiredErrorsAux at h
    injection h with h'
    subst h'
    exact absurd he (by simp)
  | cons f fs ih =>
    intro l h he
    unfold requiredErrorsAux at h
    cases h1 : subFieldCheck md f with
    | error ex => rw [h1] at h; exact absurd h (by simp)
    | ok hs =>
      rw [h1] at h
      cases h2 : requiredErrorsAux md fs with
      | error ex => rw [h2] at h; exact absurd h (by simp)
      | ok rest =>
        rw [h2] at h
        injection h with h'
        subst h'
        rcases List.mem_append.mp he with hm | hm
        · exact ⟨f, mem_subFieldCheck h1 hm⟩
        · exact ih h2 hm

/-- The only error the lenient name check can emit is the character-class
message: the space branch is dead, because a name that passes
`^[a-zA-Z0-9-]+$` cannot contain a space. -/
lemma mem_nameErrors {md : Yaml} {l : List String} {e : String}
    (h : nameErrors md = .ok l) (he : e ∈ l) :
    ∃ s, e = "Skill name should only contain letters, numbers, and hyphens. Got: " ++ s := by
  unfold nameErrors at h
  cases h1 : yamlDictGet md "name" (.str "") with
  | error ex => rw [h1] at h; exact absurd h (by simp)
  | ok name =>
    rw [h1] at h
    simp only at h
    cases ht : name.truthy with
    | false =>
      rw [ht] at h
      simp only [Bool.not_false, if_pos] at h
      injection h with h'
      subst h'
      exact absurd he (by simp)
    | true =>
      rw [ht] at h
      simp only [Bool.not_true, Bool.false_eq_true, if_false] at h
      cases name with
      | str s =>
        injection h with h'
        subst h'
        cases hm : looseNameMatch s with
        | false =>
          rw [hm] at he
          simp only [Bool.not_false, if_pos] at he
          exact ⟨s, List.mem_singleton.mp he⟩
        | true =>
          rw [hm, looseName_no_space hm] at he
          simp at he
      | null => exact absurd h (by simp)
      | bool b => exact absurd h (by simp)
      | int n => exact absurd h (by simp)
      | list xs => exact absurd h (by simp)
      | map kvs => exact absurd h (by simp)

/-- The only error the tags type check can emit. -/
lemma mem_tagsErrors {md : Yaml} {l : List String} {e : String}
    (h : tagsErrors md = .ok l) (he : e ∈ l) :
    e = "Tags must be a list/array (e.g., [\"tag1\", \"tag2\"])" := by
  unfold tagsErrors at h
  cases h1 : yamlDictGet md "tags" (.list []) with
  | error ex => rw [h1] at h; exact absurd h (by simp)
  | ok tags =>
    rw [h1] at h
    injection h with h'
    subst h'
    cases hc : (tags.truthy && !tags.isList) <;> rw [hc] at he
    · exact absurd he (by simp)
    · exact List.mem_singleton.mp he

end ProcessSubmission

/-- Claim C10 (confirmed): the submission validator's error branch
`Skill name cannot contain spaces` is unreachable — no error it ever returns
starts with that text, for any document and any name, because a name with a
space already fails the preceding `^[a-zA-Z0-9-]+$` check and takes that
branch instead. -/
theorem space_error_branch_unreachable
    (sl : String → Except String Yaml) (content : String) (v : Bool)
    (errs warns : List String) (e : String)
    (hok : ProcessSubmission.validate_skill sl content = .ok (v, errs, warns))
    (he : e ∈ errs) :
    pyStartsWith e "Skill name cannot contain spaces" = false := by
  unfold ProcessSubmission.validate_skill at hok
  cases hsw : pyStartsWith content "---" with
  | false =>
    rw [hsw] at hok
    simp only [Bool.not_false, if_pos] at hok
    injection hok with h'
    injection h' with ha hb
    injection hb with hc hd
    rw [← hc] at he
    rw [List.mem_singleton.mp he]
    decide
  | true =>
    rw [hsw] at hok
    simp only [Bool.not_true, Bool.false_eq_true, if_false] at hok
    cases hpf : ProcessSubmission.parse_yaml_frontmatter sl content with
    | none =>
      rw [hpf] at hok
      simp only at hok
      injection hok with h'
      injection h' with ha hb
      injection hb with hc hd
      rw [← hc] at he
      rw [List.mem_singleton.mp he]
      decide
    | some fm =>
      rw [hpf] at hok
      simp only at hok
      cases hg : yamlDictGet fm "metadata" (.map []) with
      | error ex => rw [hg] at hok; exact absurd hok (by simp)
      | ok metadata =>
        rw [hg] at hok
        simp only at hok
        cases hmt : metadata.truthy with
        | false =>
          rw [hmt] at hok
          simp only [Bool.not_false, if_pos] at hok
          injection hok with h'
          injection h' with ha hb
          injection hb with hc hd
          rw [← hc] at he
          rw [List.mem_singleton.mp he]
          decide
        | true =>
          rw [hmt] at hok
          simp only [Bool.not_true, Bool.false_eq_true, if_false] at hok
          cases h2 : ProcessSubmission.requiredErrorsAux metadata
              ProcessSubmission.required_fields with
          | error ex => rw [h2] at hok; exact absurd hok (by simp)
          | ok e1 =>
            rw [h2] at hok
            simp only at hok
            cases h3 : pyIn "version" metadata with
            | error ex => rw [h3] at hok; exact absurd hok (by simp)
            | ok vmem =>
              rw [h3] at hok
              simp only at hok
              cases h4 : ProcessSubmission.nameErrors metadata with
              | error ex => rw [h4] at hok; exact absurd hok (by simp)
              | ok e2 =>
                rw [h4] at hok
                simp only at hok
                cases h5 : ProcessSubmission.tagsErrors metadata with
                | error ex => rw [h5] at hok; exact absurd hok (by simp)
                | ok e3 =>
                  rw [h5] at hok
                  simp only at hok
                  injection hok with h'
                  injection h' with ha hb
                  injection hb with hc hd
                  rw [← hc] at he
                  rcases List.mem_append.mp he with hm | hm
                  · rcases List.mem_append.mp hm with hm1 | hm2
                    · obtain ⟨f, hf⟩ := ProcessSubmission.mem_requiredErrorsAux h2 hm1
                      rw [hf]
                      exact pyStartsWith_append_ne _ _ _ 0 (by decide) (by decide) (by decide)
                    · obtain ⟨s, hse⟩ := ProcessSubmission.mem_nameErrors h4 hm2
                      rw [hse]
                      exact pyStartsWith_append_ne _ _ _ 11 (by decide) (by decide) (by decide)
                  · rw [ProcessSubmission.mem_tagsErrors h5 hm]
                    decide

/-- Witness for C10's theorem at the concrete submission `docSubmission`
(whose metadata lacks `description`, so the validator reports an error). -/
theorem space_error_branch_witness :
    ProcessSubmission.validate_skill safeLoadTable docSubmission =
      .ok (false, ["Missing required metadata field: description"],
        ["Missing 'version' field - defaulting to 1.0.0",
         "Recommended section missing: ## Steps"]) ∧
    "Missing required metadata field: description" ∈
      ["Missing required metadata field: description"] ∧
    pyStartsWith "Missing required metadata field: description"
      "Skill name cannot contain spaces" = false :=
  ⟨by decide, by decide,
    space_error_branch_unreachable safeLoadTable docSubmission false
      ["Missing required metadata field: description"]
      ["Missing 'version' field - defaulting to 1.0.0",
       "Recommended section missing: ## Steps"]
      "Missing required metadata field: description" (by decide) (by decide)⟩

/-! ### Claim C6: category resolution -/

/-- Claim C6, amended: when the selected-category field is located,
`extract_category` returns the custom-category field lower-cased with spaces
replaced by hyphens when the selected value equals `other` case-insensitively
and the custom field is non-empty; otherwise it returns the selected value
lower-cased ONLY — no space-to-hyphen substitution happens outside the
custom branch (the original claim said it did: see the counterexample). -/
theorem extract_category_resolution (body cat : String)
    (hsel : ProcessSubmission.selectedCategory body = some cat) :
    ProcessSubmission.extract_category body =
      (if strLower cat = "other" then
         (match ProcessSubmission.customCategory body with
          | some cu => if !cu.isEmpty then strReplaceSpaceHyphen (strLower cu)
                       else strLower cat
          | none => strLower cat)
       else strLower cat) := by
  unfold ProcessSubmission.extract_category
  unfold ProcessSubmission.selectedCategory ProcessSubmission.selectedCategoryStart
    ProcessSubmission.selectedCategoryEnd at hsel
  unfold ProcessSubmission.customCategory
  cases hf1 : pyFindFrom body "\n### Category\n" 0 with
  | some i =>
    rw [hf1] at hsel
    simp only at hsel ⊢
    injection hsel with hcat
    rw [hcat]
    by_cases ho : strLower cat = "other"
    · rw [if_pos ho, if_pos ho]
      cases hcc : pyFindFrom body "### Custom Category" 0 with
      | none => rfl
      | some cs => rfl
    · rw [if_neg ho, if_neg ho]
  | none =>
    rw [hf1] at hsel
    simp only at hsel ⊢
    cases hf2 : pyFindFrom body "### Category\n" 0 with
    | none => rw [hf2] at hsel; simp at hsel
    | some i =>
      rw [hf2] at hsel
      simp only at hsel ⊢
      injection hsel with hcat
      rw [hcat]
      by_cases ho : strLower cat = "other"
      · rw [if_pos ho, if_pos ho]
        cases hcc : pyFindFrom body "### Custom Category" 0 with
        | none => rfl
        | some cs => rfl
      · rw [if_neg ho, if_neg ho]

/-- Counterexample to C6 as stated: with selected category
`Data Engineering` (not `other`), `extract_category` returns
`data engineering` — lower-cased but with the space KEPT, not the claimed
`data-engineering`. -/
theorem extract_category_no_hyphens_counterexample :
    ProcessSubmission.selectedCategory bodySelected = some "Data Engineering" ∧
    ProcessSubmission.extract_category bodySelected = "data engineering" ∧
    ProcessSubmission.extract_category bodySelected ≠
      strReplaceSpaceHyphen (strLower "Data Engineering") := by
  refine ⟨by decide, by decide, by decide⟩

/-- Witness for C6's theorem at the concrete issue body `bodySelected`. -/
theorem extract_category_witness :
    ProcessSubmission.selectedCategory bodySelected = some "Data Engineering" ∧
    ProcessSubmission.extract_category bodySelected =
      (if strLower "Data Engineering" = "other" then
         (match ProcessSubmission.customCategory bodySelected with
          | some cu => if !cu.isEmpty then strReplaceSpaceHyphen (strLower cu)
                       else strLower "Data Engineering"
          | none => strLower "Data Engineering")
       else strLower "Data Engineering") :=
  ⟨by decide, extract_category_resolution bodySelected "Data Engineering" (by decide)⟩

/-! ### Claim C7: fence stripping in `extract_skill_content` -/

/-- A non-empty strip leaves a non-whitespace character in the string. -/
lemma pyStrip_nonempty {s : String} (h : pyStrip s ≠ "") :
    ∃ c ∈ s.data, isPySpace c = false := by
  by_contra hall
  push_neg at hall
  have hws : ∀ c ∈ s.data, isPySpace c = true := by
    intro c hc
    cases hb : isPySpace c with
    | false => exact absurd hb (hall c hc)
    | true => rfl
  apply h
  apply String.ext
  show pyStripChars s.data = ([] : List Char)
  unfold pyStripChars
  rw [List.dropWhile_eq_nil_iff.mpr hws]
  rfl

/-- `takeWhile` over an append stops inside the left part when that part
holds a non-matching element. -/
lemma takeWhile_append_stop {l l' : List Char} (h : ∃ c ∈ l, isPySpace c = false) :
    (l ++ l').takeWhile isPySpace = l.takeWhile isPySpace := by
  rw [List.takeWhile_append]
  rw [if_neg]
  intro hlen
  obtain ⟨c, hc, hcp⟩ := h
  have heq : l.takeWhile isPySpace = l :=
    (List.takeWhile_prefix _).eq_of_length hlen
  have : isPySpace c = true := List.mem_takeWhile_imp (heq ▸ hc)
  rw [this] at hcp
  exact absurd hcp (by decide)

/-- `dropWhile` over an append skips an all-matching left part. -/
lemma dropWhile_append_all {l l' : List Char} (h : ∀ c ∈ l, isPySpace c = true) :
    (l ++ l').dropWhile isPySpace = l'.dropWhile isPySpace := by
  rw [List.dropWhile_append, if_pos]
  rw [List.dropWhile_eq_nil_iff.mpr h]
  rfl

/-- Stripping is unchanged by first removing an all-whitespace prefix. -/
lemma pyStripChars_drop_ws {l : List Char} {j : Nat} (hj : j ≤ l.length)
    (h : ∀ c ∈ l.take j, isPySpace c = true) :
    pyStripChars (l.drop j) = pyStripChars l := by
  unfold pyStripChars
  have : List.dropWhile isPySpace l = List.dropWhile isPySpace (l.drop j) := by
    conv_lhs => rw [← List.take_append_drop j l]
    exact dropWhile_append_all h
  rw [this]

namespace ProcessSubmission

/-- The last index of a character is inside the list. -/
lemma lastIdxOf_lt_length {c : Char} :
    ∀ {l : List Char} {i : Nat}, lastIdxOf c l = some i → i < l.length := by
  intro l
  induction l with
  | nil => intro i h; simp [lastIdxOf] at h
  | cons x xs ih =>
    intro i h
    unfold lastIdxOf at h
    cases hr : lastIdxOf c xs with
    | some k =>
      rw [hr] at h
      injection h with h'
      subst h'
      exact Nat.succ_lt_succ (ih hr)
    | none =>
      rw [hr] at h
      by_cases hx : x = c
      · rw [if_pos hx] at h
        injection h with h'
        subst h'
        exact Nat.succ_pos _
      · rw [if_neg hx] at h
        exact absurd h (by simp)

/-- `\s*\n` always consumes at the head of a string starting with a newline:
it consumes `m + 1` characters, with `m` an all-whitespace prefix length of
the tail. -/
lemma wsNl_cons_newline (rest0 : List Char) :
    ∃ m, wsNl ('\n' :: rest0) = some (m + 1) ∧
      m ≤ (rest0.takeWhile isPySpace).length ∧
      (∀ c ∈ rest0.take m, isPySpace c = true) := by
  unfold wsNl
  have htw : ('\n' :: rest0).takeWhile isPySpace = '\n' :: rest0.takeWhile isPySpace := by
    rw [List.takeWhile_cons, if_pos (by decide)]
  rw [htw]
  cases hl : lastIdxOf '\n' ('\n' :: rest0.takeWhile isPySpace) with
  | none =>
    exfalso
    unfold lastIdxOf at hl
    cases hr : lastIdxOf '\n' (rest0.takeWhile isPySpace) <;> simp [hr] at hl
  | some m0 =>
    have hlt := lastIdxOf_lt_length hl
    simp only [List.length_cons] at hlt
    cases m0 with
    | zero =>
      refine ⟨0, rfl, Nat.zero_le _, ?_⟩
      intro c hc
      simp at hc
    | succ m =>
      have hm : m + 1 ≤ (rest0.takeWhile isPySpace).length := Nat.lt_succ_iff.mp hlt
      refine ⟨m + 1, rfl, hm, ?_⟩
      intro c hc
      obtain ⟨t, ht⟩ := List.takeWhile_prefix (l := rest0) isPySpace
      have htk : rest0.take (m + 1) = (rest0.takeWhile isPySpace).take (m + 1) := by
        conv_lhs => rw [← ht]
        rw [List.take_append_eq_append_take, Nat.sub_eq_zero_of_le hm, List.take_zero,
          List.append_nil]
      rw [htk] at hc
      exact List.mem_takeWhile_imp ((List.take_prefix _ _).subset hc)

end ProcessSubmission

namespace ProcessSubmission

/-- A failing language-tag alternative is skipped. -/
lemma tryTags_cons_skip {t : String} {ts : List String} {rest : List Char}
    (hnp : t.data.isPrefixOf rest = false) : tryTags rest (t :: ts) = tryTags rest ts := by
  conv_lhs => unfold tryTags
  rw [hnp]
  simp

/-- A matching language-tag alternative followed by a newline consumes the
tag and the `\s*\n` span. -/
lemma tryTags_cons_hit {t : String} {ts : List String} {rest0 : List Char} {k : Nat}
    (hw : wsNl ('\n' :: rest0) = some k) :
    tryTags (t.data ++ ('\n' :: rest0)) (t :: ts) = some (t.length + k) := by
  unfold tryTags
  rw [if_pos (List.isPrefixOf_iff_prefix.mpr (List.prefix_append _ _))]
  rw [show t.length = t.data.length from rfl, List.drop_left, hw]

/-- What the opening-fence `re.sub` removes from a fenced block with a known
tag: the fence line and an all-whitespace prefix of the inner content. -/
lemma stripOpenFence_fence (tag inner : String) (htag : tag ∈ FENCE_TAGS)
    (hne : ∃ c ∈ inner.data, isPySpace c = false) :
    ∃ j, j ≤ inner.data.length ∧ (∀ c ∈ inner.data.take j, isPySpace c = true) ∧
      (stripOpenFence ("```" ++ tag ++ "\n" ++ inner ++ "\n```")).data =
        inner.data.drop j ++ ['\n', '`', '`', '`'] := by
  obtain ⟨m, hw, hm, hws⟩ := wsNl_cons_newline (inner.data ++ ['\n', '`', '`', '`'])
  have htws : (inner.data ++ ['\n', '`', '`', '`']).takeWhile isPySpace =
      inner.data.takeWhile isPySpace := takeWhile_append_stop hne
  rw [htws] at hm
  have hm' : m ≤ inner.data.length := le_trans hm ((List.takeWhile_prefix _).length_le)
  refine ⟨m, hm', ?_, ?_⟩
  · intro c hc
    apply hws
    have heq : (inner.data ++ ['\n', '`', '`', '`']).take m = inner.data.take m := by
      rw [List.take_append_eq_append_take, Nat.sub_eq_zero_of_le hm', List.take_zero,
        List.append_nil]
    rw [heq]
    exact hc
  · have hdata : ("```" ++ tag ++ "\n" ++ inner ++ "\n```").data =
        '`' :: '`' :: '`' :: (tag.data ++ ('\n' :: (inner.data ++ ['\n', '`', '`', '`']))) := by
      simp only [String.data_append, List.append_assoc]
      rfl
    have htt : tryTags (tag.data ++ ('\n' :: (inner.data ++ ['\n', '`', '`', '`']))) FENCE_TAGS =
        some (tag.length + (m + 1)) := by
      simp only [FENCE_TAGS, List.mem_cons, List.not_mem_nil, or_false] at htag
      rw [show FENCE_TAGS = ["markdown", "md", "yaml", ""] from rfl]
      rcases htag with rfl | rfl | rfl | rfl
      · exact tryTags_cons_hit hw
      · rw [tryTags_cons_skip (by
          rw [show ("md" : String).data = ['m', 'd'] from rfl,
            show ("markdown" : String).data = ['m', 'a', 'r', 'k', 'd', 'o', 'w', 'n'] from rfl]
          simp [List.isPrefixOf])]
        exact tryTags_cons_hit hw
      · rw [tryTags_cons_skip (by
            rw [show ("yaml" : String).data = ['y', 'a', 'm', 'l'] from rfl,
              show ("markdown" : String).data = ['m', 'a', 'r', 'k', 'd', 'o', 'w', 'n'] from rfl]
            simp [List.isPrefixOf]),
          tryTags_cons_skip (by
            rw [show ("yaml" : String).data = ['y', 'a', 'm', 'l'] from rfl,
              show ("md" : String).data = ['m', 'd'] from rfl]
            simp [List.isPrefixOf])]
        exact tryTags_cons_hit hw
      · rw [tryTags_cons_skip (by
            rw [show ("" : String).data = ([] : List Char) from rfl, List.nil_append,
              show ("markdown" : String).data = ['m', 'a', 'r', 'k', 'd', 'o', 'w', 'n'] from rfl]
            simp [List.isPrefixOf]),
          tryTags_cons_skip (by
            rw [show ("" : String).data = ([] : List Char) from rfl, List.nil_append,
              show ("md" : String).data = ['m', 'd'] from rfl]
            simp [List.isPrefixOf]),
          tryTags_cons_skip (by
            rw [show ("" : String).data = ([] : List Char) from rfl, List.nil_append,
              show ("yaml" : String).data = ['y', 'a', 'm', 'l'] from rfl]
            simp [List.isPrefixOf])]
        exact tryTags_cons_hit hw
    have hofl : openFenceLen ("```" ++ tag ++ "\n" ++ inner ++ "\n```") =
        some (3 + (tag.length + (m + 1))) := by
      unfold openFenceLen
      rw [hdata]
      rw [if_pos (by simp [List.isPrefixOf])]
      have hdrop3 : ('`' :: '`' :: '`' ::
          (tag.data ++ ('\n' :: (inner.data ++ ['\n', '`', '`', '`'])))).drop 3 =
          tag.data ++ ('\n' :: (inner.data ++ ['\n', '`', '`', '`'])) := rfl
      rw [hdrop3, htt]
    unfold stripOpenFence
    rw [hofl]
    simp only
    rw [hdata]
    show ('`' :: '`' :: '`' ::
        (tag.data ++ ('\n' :: (inner.data ++ ['\n', '`', '`', '`'])))).drop
          (3 + (tag.length + (m + 1))) = inner.data.drop m ++ ['\n', '`', '`', '`']
    rw [show ('`' :: '`' :: '`' ::
        (tag.data ++ ('\n' :: (inner.data ++ ['\n', '`', '`', '`'])))) =
        ['`', '`', '`'] ++ (tag.data ++ ('\n' :: (inner.data ++ ['\n', '`', '`', '`'])))
      from rfl]
    rw [List.drop_append_eq_append_drop]
    rw [List.drop_eq_nil_of_le (by simp only [List.length_cons, List.length_nil]; omega),
      List.nil_append]
    have h3 : 3 + (tag.length + (m + 1)) - (['`', '`', '`'] : List Char).length =
        tag.length + (m + 1) := by
      simp only [List.length_cons, List.length_nil]
      omega
    rw [h3]
    rw [List.drop_append_eq_append_drop]
    rw [List.drop_eq_nil_of_le (by rw [show tag.length = tag.data.length from rfl]; omega),
      List.nil_append]
    have h4 : tag.length + (m + 1) - tag.data.length = m + 1 := by
      rw [show tag.length = tag.data.length from rfl]
      omega
    rw [h4]
    show (inner.data ++ ['\n', '`', '`', '`']).drop m = inner.data.drop m ++ ['\n', '`', '`', '`']
    rw [List.drop_append_eq_append_drop, Nat.sub_eq_zero_of_le hm', List.drop_zero]

/-- Dropping keeps the last element while something remains. -/
lemma getLast?_drop {l : List Char} {n : Nat} (h : n < l.length) :
    (l.drop n).getLast? = l.getLast? := by
  conv_rhs => rw [← List.take_append_drop n l]
  rw [List.getLast?_append]
  have hne : l.drop n ≠ [] := by
    intro h0
    have hlen := congrArg List.length h0
    rw [List.length_drop] at hlen
    simp at hlen
    omega
  obtain ⟨a, ha⟩ : ∃ a, (l.drop n).getLast? = some a := ⟨_, List.getLast?_eq_getLast _ hne⟩
  rw [ha]
  rfl

/-- The closing-fence pattern matches exactly at the final `\n```` of
`q ++ "\n```"`. -/
lemma closeIdx_append_nl3 : ∀ q : List Char,
    closeIdx (q ++ ['\n', '`', '`', '`']) = some q.length := by
  intro q
  induction q with
  | nil => rfl
  | cons c q ih =>
    show closeIdx (c :: (q ++ ['\n', '`', '`', '`'])) = some (q.length + 1)
    have hlast : ((c :: (q ++ ['\n', '`', '`', '`'])).drop 4).getLast? = some '`' := by
      have hlen : 4 < (c :: (q ++ ['\n', '`', '`', '`'])).length := by
        simp only [List.length_cons, List.length_append, List.length_nil]
        omega
      rw [getLast?_drop hlen]
      rw [show c :: (q ++ ['\n', '`', '`', '`']) =
        (c :: q) ++ ['\n', '`', '`', '`'] from rfl, List.getLast?_append]
      rfl
    have hmem : '`' ∈ (c :: (q ++ ['\n', '`', '`', '`'])).drop 4 := by
      apply List.mem_of_mem_getLast?
      rw [hlast]
      rfl
    have hall : ((c :: (q ++ ['\n', '`', '`', '`'])).drop 4).all isPySpace = false :=
      List.all_eq_false.mpr ⟨'`', hmem, by decide⟩
    unfold closeIdx
    rw [hall, Bool.and_false]
    simp only [Bool.false_eq_true, if_false]
    rw [ih]

/-- Stripping the closing fence from `q ++ "\n```"` leaves exactly `q`. -/
lemma stripCloseFence_append (q : List Char) :
    stripCloseFence ⟨q ++ ['\n', '`', '`', '`']⟩ = ⟨q⟩ := by
  unfold stripCloseFence
  rw [show (⟨q ++ ['\n', '`', '`', '`']⟩ : String).data = q ++ ['\n', '`', '`', '`'] from rfl]
  rw [closeIdx_append_nl3]
  simp only
  rw [List.take_left]

/-- When the `Skill Markdown` heading is found (equivalently, the raw field
value is non-empty), `extract_skill_content` is the fence-stripping pipeline
applied to the raw field value. -/
lemma extract_skill_content_decomp (body : String) (h : extractRaw body ≠ "") :
    extract_skill_content body =
      pyStrip (stripCloseFence (stripOpenFence (extractRaw body))) := by
  unfold extractRaw at h ⊢
  unfold extract_skill_content
  cases hf : pyFindFrom body "### Skill Markdown" 0 with
  | none =>
    rw [hf] at h
    simp only at h
    exact absurd rfl h
  | some i =>
    rfl

end ProcessSubmission

/-- **C7.** Fence stripping, corrected to the language tags the code knows:
for every issue body whose raw `Skill Markdown` field value is a single
fenced block whose opening fence carries no language tag or one of
`markdown`, `md`, `yaml`, and whose inner content is non-blank,
`extract_skill_content` returns the inner content with both fences removed
and surrounding whitespace stripped. -/
theorem fence_stripping_known_tags (body tag inner : String)
    (htag : tag ∈ ProcessSubmission.FENCE_TAGS)
    (hne : pyStrip inner ≠ "")
    (hraw : ProcessSubmission.extractRaw body =
      "```" ++ tag ++ "\n" ++ inner ++ "\n```") :
    ProcessSubmission.extract_skill_content body = pyStrip inner := by
  have hnechar : ∃ c ∈ inner.data, isPySpace c = false := pyStrip_nonempty hne
  have hdataraw : ("```" ++ tag ++ "\n" ++ inner ++ "\n```" : String).data =
      '`' :: '`' :: '`' :: (tag.data ++ ('\n' :: (inner.data ++ ['\n', '`', '`', '`']))) := by
    simp only [String.data_append, List.append_assoc]
    rfl
  have hrawne : ProcessSubmission.extractRaw body ≠ "" := by
    rw [hraw]
    intro h0
    have h1 : ('`' :: '`' :: '`' ::
        (tag.data ++ ('\n' :: (inner.data ++ ['\n', '`', '`', '`'])))) = ([] : List Char) := by
      rw [← hdataraw, h0]
    exact List.noConfusion h1
  rw [ProcessSubmission.extract_skill_content_decomp body hrawne, hraw]
  obtain ⟨j, hj, hws, hdata⟩ := ProcessSubmission.stripOpenFence_fence tag inner htag hnechar
  have hso : ProcessSubmission.stripOpenFence ("```" ++ tag ++ "\n" ++ inner ++ "\n```") =
      ⟨inner.data.drop j ++ ['\n', '`', '`', '`']⟩ := String.ext hdata
  rw [hso, ProcessSubmission.stripCloseFence_append]
  show (⟨pyStripChars (inner.data.drop j)⟩ : String) = ⟨pyStripChars inner.data⟩
  rw [pyStripChars_drop_ws hj hws]

/-- A concrete run of the corrected fence-stripping property: the body
`bodyFenceMd` wraps `print(1)` in a fence tagged `md`, and the extractor
returns exactly `print(1)`. -/
theorem fence_stripping_witness :
    ("md" : String) ∈ ProcessSubmission.FENCE_TAGS ∧ pyStrip "print(1)" ≠ ("" : String) ∧
      ProcessSubmission.extractRaw bodyFenceMd =
        "```" ++ "md" ++ "\n" ++ "print(1)" ++ "\n```" ∧
      ProcessSubmission.extract_skill_content bodyFenceMd = pyStrip "print(1)" :=
  ⟨by decide, by decide, by decide,
    fence_stripping_known_tags bodyFenceMd "md" "print(1)" (by decide) (by decide) (by decide)⟩

/-- The original claim fails for language tags the code does not know: the
body `bodyFencePython` wraps `print(1)` in a fence tagged `python`, and the
extractor keeps the whole opening fence instead of returning the inner
content. -/
theorem fence_stripping_python_counterexample :
    ProcessSubmission.extractRaw bodyFencePython =
      "```" ++ "python" ++ "\n" ++ "print(1)" ++ "\n```" ∧
    ProcessSubmission.extract_skill_content bodyFencePython = "```python\nprint(1)" ∧
    ProcessSubmission.extract_skill_content bodyFencePython ≠ pyStrip "print(1)" :=
  ⟨by decide, by decide, by decide⟩
